import Mathlib

/-!
A shallow embedding of `graph/scheduling_problem.py` (the Resource-Demand
Network scheduling core) and `examples/hashgraph.py` (the flow-graph hash),
with theorems checking the specification's claims against the code.

Python objects are mutable and aliased (a supply `Task` appended to a
client's `supply` list is the same object the supplier holds in its inbox),
so the embedding threads an explicit global state: a heap of resources and
a heap of tasks, both keyed by the objects' unique ascending ids, exactly
as produced by the `itertools.count()` counters in the source.  A raised
Python exception propagates; the embedding's error value carries the state
at the moment of the raise (Python does not roll back mutations made
before a raise).
-/

namespace SchedulingProblem

/-- The Python exception kinds raised by the embedded code. `outOfFuel` is a
modelling artefact for recursion bounded by an explicit fuel parameter. -/
inductive PyErr where
  | typeError
  | valueError
  | attributeError
  | assertionError
  | notImplementedError
  | schedulingError
  | keyError
  | indexError
  | outOfFuel
  deriving DecidableEq, Repr

/-- Embedding of `Task` (scheduling_problem.py:16-91).  `requires` is the
Python dict key → count in insertion order; `id` comes from the global
`count()`; `scheduled_start`/`scheduled_finish` start unset (`None`). -/
structure Task where
  id : Nat
  requires : List (String × Nat)
  client : Option Nat := none
  supplier : Option Nat := none
  scheduled_start : Option Int := none
  scheduled_finish : Option Int := none
  idle_time : Int := 0
  deriving DecidableEq, Repr

/-- Embedding of `Process` (scheduling_problem.py:94-161). -/
structure Process where
  inputs : List (String × Nat) := []
  outputs : List (String × Nat) := []
  setup_time : Int := 0
  run_time : Int := 0
  shutdown_time : Int := 0
  change_over_time : Int := 0
  cost : Int := 0
  deriving DecidableEq, Repr

/-- The key set of a Python dict (its keys, in insertion order). -/
def dictKeys (m : List (String × Nat)) : List String := m.map Prod.fst

/-- Python `a.keys() == b.keys()`: equality of key views is set equality. -/
def keySetEq (a b : List String) : Bool :=
  (a.all fun k => b.contains k) && (b.all fun k => a.contains k)

/-- `Task.__eq__` on another `Task` (scheduling_problem.py:66-67):
`self.requires.keys() == other.requires.keys()`. -/
def taskEqTask (t u : Task) : Bool :=
  keySetEq (dictKeys t.requires) (dictKeys u.requires)

/-- `Task.__eq__` on a `Process` (scheduling_problem.py:64-65):
`self.requires.keys() == other.outputs.keys()`. -/
def taskEqProc (t : Task) (p : Process) : Bool :=
  keySetEq (dictKeys t.requires) (dictKeys p.outputs)

/-- `Process.__eq__` on a `Task` (scheduling_problem.py:158-159):
`self.outputs.keys() == other.requires.keys()`. -/
def procEqTask (p : Process) (t : Task) : Bool :=
  keySetEq (dictKeys p.outputs) (dictKeys t.requires)

/-- A dynamically typed value appearing as the right operand of
`Task.__eq__`. -/
inductive PyValue where
  | task (t : Task)
  | process (p : Process)
  | other
  deriving DecidableEq, Repr

/-- Full embedding of `Task.__eq__` (scheduling_problem.py:62-69): a
`Process` operand compares key sets, a `Task` operand compares key sets,
and any other operand raises `NotImplementedError` (the method raises the
exception instead of returning the `NotImplemented` sentinel). -/
def taskEqValue (t : Task) : PyValue → Except PyErr Bool
  | .process p => .ok (taskEqProc t p)
  | .task u => .ok (taskEqTask t u)
  | .other => .error .notImplementedError

/-- Embedding of the mutable state of a `Resource`
(scheduling_problem.py:170-177).  Lists hold task ids (references into the
task heap); `supply` is the Python dict keyed by the task object, which
hashes to `Task.id`, so it is keyed by id here.  `hasRdn` records whether
`_rdn` has been set. -/
structure ResourceData where
  new_tasks : List Nat := []
  tasks : List Nat := []
  supply : List (Nat × List Nat) := []
  processes : List Process := []
  hasRdn : Bool := false
  idle_time : Int := 0
  deriving DecidableEq, Repr

/-- The global state: the RDN's node list and edge list (standing in for
the external `Graph` container), the resource heap, the task heap, the
notification queue (a Python dict used as an ordered set of resource ids),
and the `itertools.count()` counter for fresh task ids. -/
structure RDNState where
  nodes : List Nat := []
  edges : List (Nat × Nat) := []
  res : List (Nat × ResourceData) := []
  taskHeap : List (Nat × Task) := []
  task_queue : List Nat := []
  nextTaskId : Nat := 0
  deriving DecidableEq, Repr

/-- Python dict lookup on an association list (first occurrence wins). -/
def alookup {α : Type} : List (Nat × α) → Nat → Option α
  | [], _ => none
  | (k, v) :: rest, key => if key = k then some v else alookup rest key

/-- Replace the value at every occurrence of a key. -/
def updateA {α : Type} : List (Nat × α) → Nat → α → List (Nat × α)
  | [], _, _ => []
  | (a, b) :: rest, k, v =>
    if a = k then (k, v) :: updateA rest k v else (a, b) :: updateA rest k v

/-- Update an association list at a key, or append when the key is absent
(Python dict assignment preserving insertion order). -/
def setA {α : Type} (l : List (Nat × α)) (k : Nat) (v : α) : List (Nat × α) :=
  if (alookup l k).isSome then updateA l k v else l ++ [(k, v)]

def getRes (s : RDNState) (rid : Nat) : Option ResourceData :=
  alookup s.res rid

def setRes (s : RDNState) (rid : Nat) (r : ResourceData) : RDNState :=
  { s with res := setA s.res rid r }

def getTask (s : RDNState) (tid : Nat) : Option Task :=
  alookup s.taskHeap tid

def setTask (s : RDNState) (tid : Nat) (t : Task) : RDNState :=
  { s with taskHeap := setA s.taskHeap tid t }

/-- Create a fresh `Task` object (the `Task.__init__` path used internally
by the scheduler: a dict `requires`, optional client and supplier, all
timing hints `None`), drawing the next id from the global counter. -/
def allocTask (s : RDNState) (req : List (String × Nat))
    (client supplier : Option Nat) : Task × RDNState :=
  let tid := s.nextTaskId
  let t : Task := { id := tid, requires := req, client := client, supplier := supplier }
  (t, { s with taskHeap := s.taskHeap ++ [(tid, t)], nextTaskId := tid + 1 })

/-- A computation that either returns a value and the updated state or
raises a Python exception, keeping the state at the raise. -/
abbrev PyResult (α : Type) := Except (PyErr × RDNState) (α × RDNState)

/-- `ResourceDemandNetwork.notify` (scheduling_problem.py:462-466): insert
`r_id` into the queue if absent; duplicates collapse, order is preserved. -/
def notify (s : RDNState) (rid : Nat) : RDNState :=
  if s.task_queue.contains rid then s
  else { s with task_queue := s.task_queue ++ [rid] }

/-- `Resource.can_support` (scheduling_problem.py:261-265). -/
def can_support (r : ResourceData) (t : Task) : Bool :=
  r.processes.any fun p => procEqTask p t

/-- `Resource.get_process` (scheduling_problem.py:254-259): first installed
process whose outputs key set equals the task's requires key set. -/
def get_process (r : ResourceData) (t : Task) : Option Process :=
  r.processes.find? fun p => procEqTask p t

/-- `Resource.add_task` (scheduling_problem.py:198-206): error when the
resource is not attached to an RDN; error when no installed process
matches the task by output key set; otherwise append to `new_tasks` and
notify the RDN with this resource's id.  Both raises happen before any
mutation, so the carried error state is the entry state. -/
def add_task (s : RDNState) (rid : Nat) (tid : Nat) : PyResult Unit :=
  match getTask s tid with
  | none => .error (.assertionError, s)
  | some t =>
    match getRes s rid with
    | none => .error (.attributeError, s)
    | some r =>
      if !r.hasRdn then .error (.valueError, s)
      else if !(r.processes.any fun p => procEqTask p t) then .error (.valueError, s)
      else
        let s1 := setRes s rid { r with new_tasks := r.new_tasks ++ [tid] }
        .ok ((), notify s1 rid)

/-- Python `list.remove` guarded by `in` (scheduling_problem.py:211-215):
drop the first element equal to `t` under `Task.__eq__` (requires key-set
equality); leave the list unchanged when no element matches. -/
def removeFirstEq (s : RDNState) (t : Task) : List Nat → List Nat
  | [] => []
  | tid :: rest =>
    match getTask s tid with
    | none => tid :: removeFirstEq s t rest
    | some u => if taskEqTask t u then rest else tid :: removeFirstEq s t rest

/-- The `for supply_task in supply_tasks` loop inside `remove_task`
(scheduling_problem.py:219-222), parameterised by the recursive
`remove_task` reference `f` (the call one fuel level down).
`network.node(task.supplier)` with an unknown or `None` id yields `None`,
and calling `remove_task` on `None` raises `AttributeError`. -/
def removeCascadeF (f : RDNState → Nat → Nat → PyResult Unit) (t : Task) :
    RDNState → List Nat → PyResult Unit
  | s, [] => .ok ((), s)
  | s, stid :: rest =>
    match t.supplier with
    | none => .error (.attributeError, s)
    | some supId =>
      match getRes s supId with
      | none => .error (.attributeError, s)
      | some _ =>
        match f s supId stid with
        | .error e => .error e
        | .ok ((), s2) => removeCascadeF f t (notify s2 supId) rest

/-- `Resource.remove_task` (scheduling_problem.py:208-222): remove the
first requires-key-set-equal task from `tasks` and from `new_tasks`; if
`supply` has an entry keyed by this task (dict membership hashes on
`Task.id`), iterate its recorded supply tasks, each time resolving
`self._rdn.network.node(task.supplier)` — the supplier recorded on the
*removed* task, not on the supply task — recursively removing the supply
task there and notifying `task.supplier`.  The supply entry itself is
never deleted. -/
def remove_task : Nat → RDNState → Nat → Nat → PyResult Unit
  | 0, s, _, _ => .error (.outOfFuel, s)
  | fuel + 1, s, rid, tid =>
    match getTask s tid with
    | none => .error (.assertionError, s)
    | some t =>
      match getRes s rid with
      | none => .error (.attributeError, s)
      | some r =>
        let r1 : ResourceData :=
          { r with tasks := removeFirstEq s t r.tasks,
                   new_tasks := removeFirstEq s t r.new_tasks }
        let s1 := setRes s rid r1
        match alookup r1.supply tid with
        | none => .ok ((), s1)
        | some stids =>
          removeCascadeF (fun s' rid' tid' => remove_task fuel s' rid' tid') t s1 stids

/-- The cascade at a given fuel level. -/
def removeCascade (fuel : Nat) (s : RDNState) (t : Task) (l : List Nat) : PyResult Unit :=
  removeCascadeF (fun s' rid' tid' => remove_task fuel s' rid' tid') t s l

/-- `network.nodes(from_node=rid)`: successors of `rid` in edge insertion
order (the supply edges the RDN added for this client). -/
def fromNodes (s : RDNState) (rid : Nat) : List Nat :=
  (s.edges.filter fun e => e.1 == rid).map Prod.snd

/-- The loop body of `Resource.suppliers` (scheduling_problem.py:283-292):
resolve each downstream node, assert it is a `Resource`, and keep those
whose installed processes can support the task. -/
def suppliersAux (s : RDNState) (t : Task) : List Nat → Except PyErr (List Nat)
  | [] => .ok []
  | nid :: rest =>
    match getRes s nid with
    | none => .error .assertionError
    | some r =>
      match suppliersAux s t rest with
      | .error e => .error e
      | .ok tail => .ok (if can_support r t then nid :: tail else tail)

/-- `Resource.suppliers` (scheduling_problem.py:283-292). -/
def suppliers (s : RDNState) (rid : Nat) (t : Task) : Except PyErr (List Nat) :=
  suppliersAux s t (fromNodes s rid)

/-- The `for resource in self.suppliers(supply_task)` loop of
`Resource._awaiting_supply_schedule` (scheduling_problem.py:331-334): for
each supplier create a fresh supply task (requires = the process inputs,
client = this resource, supplier = that resource), append its reference to
`self.supply[task]`, and hand it to the supplier via `add_task` (which
notifies the RDN). -/
def fanOut (rid taskId : Nat) (inputs : List (String × Nat)) :
    RDNState → List Nat → PyResult Unit
  | s, [] => .ok ((), s)
  | s, supId :: rest =>
    let (nt, s1) := allocTask s inputs (some rid) (some supId)
    match getRes s1 rid with
    | none => .error (.attributeError, s1)
    | some r =>
      match alookup r.supply taskId with
      | none => .error (.keyError, s1)
      | some cur =>
        let s2 := setRes s1 rid { r with supply := setA r.supply taskId (cur ++ [nt.id]) }
        match add_task s2 supId nt.id with
        | .error e => .error e
        | .ok ((), s3) => fanOut rid taskId inputs s3 rest

/-- The `any(not t for t in supplier_list)` test
(scheduling_problem.py:349): `Task.__bool__` is true iff both scheduled
times are set, so this finds a supply task whose scheduled times are
(partly) unset. -/
def anyUncommittedList (s : RDNState) : List Nat → Except PyErr Bool
  | [] => .ok false
  | tid :: rest =>
    match getTask s tid with
    | none => .error .assertionError
    | some t =>
      if t.scheduled_start.isNone || t.scheduled_finish.isNone then .ok true
      else anyUncommittedList s rest

/-- The `for supply_task, supplier_list in self.supply.items()` loop
(scheduling_problem.py:348-350). -/
def anySupplyUncommitted (s : RDNState) : List (Nat × List Nat) → Except PyErr Bool
  | [] => .ok false
  | (_, tids) :: rest =>
    match anyUncommittedList s tids with
    | .error e => .error e
    | .ok true => .ok true
    | .ok false => anySupplyUncommitted s rest

/-- The tail of `Resource._awaiting_supply_schedule` after the inbox is
drained (scheduling_problem.py:338-351).  With `supply` empty the code
sorts `tasks` with the key `(t.runtime, t.name, t.id)`; `Task` defines
neither a `runtime` nor a `name` attribute, so on a non-empty task list
the key extraction raises `AttributeError` (on an empty list the key is
never evaluated and the function returns False).  With `supply` non-empty
it returns True iff some supply list holds an uncommitted task. -/
def afterDrain (s : RDNState) (rid : Nat) : PyResult Bool :=
  match getRes s rid with
  | none => .error (.attributeError, s)
  | some r =>
    if r.supply.isEmpty then
      match r.tasks with
      | [] => .ok (false, s)
      | _ :: _ => .error (.attributeError, s)
    else
      match anySupplyUncommitted s r.supply with
      | .error e => .error (e, s)
      | .ok b => .ok (b, s)

/-- `Resource._awaiting_supply_schedule` (scheduling_problem.py:303-351):
pop inbox tasks into `tasks`; a task whose matching process needs no
inputs is committed silently; for the first task whose process has inputs,
allocate `supply[task] = []`, build the probe supply task (consuming one
id from the global counter), fan supply tasks out to every supplier and
return True (waiting).  Once the inbox is empty, fall through to
`afterDrain`.  Fuel bounds the `while` loop; `new_tasks.length + 1` always
suffices. -/
def awaiting_supply_schedule (rid : Nat) : Nat → RDNState → PyResult Bool
  | 0, s => .error (.outOfFuel, s)
  | fuel + 1, s =>
    match getRes s rid with
    | none => .error (.attributeError, s)
    | some r =>
      match r.new_tasks with
      | [] => afterDrain s rid
      | tid :: rest =>
        match getTask s tid with
        | none => .error (.assertionError, s)
        | some t =>
          let r1 := { r with new_tasks := rest, tasks := r.tasks ++ [tid] }
          let s1 := setRes s rid r1
          match get_process r1 t with
          | none => .error (.assertionError, s1)
          | some p =>
            if p.inputs.isEmpty then
              awaiting_supply_schedule rid fuel s1
            else
              let r2 := { r1 with supply := setA r1.supply tid [] }
              let s2 := setRes s1 rid r2
              let (probe, s3) := allocTask s2 p.inputs (some rid) none
              match suppliers s3 rid probe with
              | .error e => .error (e, s3)
              | .ok sups =>
                match fanOut rid tid p.inputs s3 sups with
                | .error e => .error e
                | .ok ((), s4) => .ok (true, s4)

/-- The `previous_task` variable of `Resource._determine_schedule`: either
the class `NullTask` (the initial sentinel, whose class attribute
`scheduled_finish` is 0) or a reference to the previously laid-out task. -/
inductive Prev where
  | nullTask
  | ref (tid : Nat)
  deriving DecidableEq, Repr

/-- `previous_task == task` (scheduling_problem.py:367).  With the sentinel
this evaluates `NullTask == task`; the class's default equality returns
`NotImplemented`, Python then reflects into `Task.__eq__(task, NullTask)`,
and that method raises `NotImplementedError` for operands that are neither
`Task` nor `Process` (scheduling_problem.py:69). -/
def prevEq (s : RDNState) (p : Prev) (t : Task) : Except PyErr Bool :=
  match p with
  | .nullTask => .error .notImplementedError
  | .ref ptid =>
    match getTask s ptid with
    | none => .error .assertionError
    | some u => .ok (taskEqTask u t)

/-- `previous_task.scheduled_finish` (an `int` 0 on the sentinel, an
optional value on a task). -/
def prevFinish (s : RDNState) (p : Prev) : Except PyErr (Option Int) :=
  match p with
  | .nullTask => .ok (some 0)
  | .ref ptid =>
    match getTask s ptid with
    | none => .error .assertionError
    | some u => .ok u.scheduled_finish

/-- Stable insertion of a task into a list sorted ascending by
`scheduled_finish` (the sort key of scheduling_problem.py:372). -/
def insertByFinish (x : Nat × Task) : List (Nat × Task) → List (Nat × Task)
  | [] => [x]
  | y :: ys =>
    if x.2.scheduled_finish.getD 0 ≤ y.2.scheduled_finish.getD 0 then x :: y :: ys
    else y :: insertByFinish x ys

/-- Python's stable `list.sort` by the key `t.scheduled_finish`. -/
def sortByFinish : List (Nat × Task) → List (Nat × Task)
  | [] => []
  | x :: xs => insertByFinish x (sortByFinish xs)

/-- Resolve a list of task ids against the heap. -/
def resolveTasks (s : RDNState) : List Nat → Except PyErr (List (Nat × Task))
  | [] => .ok []
  | tid :: rest =>
    match getTask s tid with
    | none => .error .assertionError
    | some t =>
      match resolveTasks s rest with
      | .error e => .error e
      | .ok tail => .ok ((tid, t) :: tail)

/-- The `for t in supply_times[1:]` cancellation loop
(scheduling_problem.py:375-378): resolve `t.supplier` through the network
(`None` or an unknown id yields `None` and the call on it raises
`AttributeError`) and remove the surplus supply task from that resource.
No notification is sent here. -/
def cancelSurplus (fuel : Nat) : RDNState → List (Nat × Task) → PyResult Unit
  | s, [] => .ok ((), s)
  | s, (otid, ot) :: rest =>
    match ot.supplier with
    | none => .error (.attributeError, s)
    | some supId =>
      match getRes s supId with
      | none => .error (.attributeError, s)
      | some _ =>
        match remove_task fuel s supId otid with
        | .error e => .error e
        | .ok ((), s1) => cancelSurplus fuel s1 rest

/-- One iteration plus the remainder of the `for ix, task in
enumerate(self.tasks)` loop of `Resource._determine_schedule`
(scheduling_problem.py:361-400), translated statement by statement:
change-over fold on a key-set match with the previous task (the sentinel
comparison raises, see `prevEq`), supply alignment with surplus
cancellation when the process has inputs, then the start/finish
assignment.  Arithmetic or comparisons on an unset (`None`) time raise
`TypeError` at the corresponding source line; Python's sort raises
`TypeError` when `None` keys are actually compared, which happens exactly
when the list has two or more elements. -/
def determineLoop (rid fuel : Nat) : RDNState → Prev → List Nat → PyResult Unit
  | s, _, [] => .ok ((), s)
  | s, prev, tid :: rest =>
    match getRes s rid with
    | none => .error (.attributeError, s)
    | some r =>
      match getTask s tid with
      | none => .error (.assertionError, s)
      | some t =>
        match get_process r t with
        | none => .error (.assertionError, s)
        | some p =>
          match prevEq s prev t with
          | .error e => .error (e, s)
          | .ok matched =>
            let foldStep : PyResult Unit :=
              if matched then
                match prev with
                | .nullTask => .error (.assertionError, s)
                | .ref ptid =>
                  match getTask s ptid with
                  | none => .error (.assertionError, s)
                  | some pt =>
                    match pt.scheduled_finish with
                    | none => .error (.typeError, s)
                    | some f =>
                      let f2 := some (f + (p.change_over_time - p.shutdown_time))
                      .ok ((), setTask s ptid { pt with scheduled_finish := f2 })
              else .ok ((), s)
            match foldStep with
            | .error e => .error e
            | .ok ((), s1) =>
              let afterStart : PyResult (Option Int) :=
                if p.inputs.isEmpty then
                  -- start_time = previous_task.scheduled_finish (line 387)
                  match prevFinish s1 prev with
                  | .error e => .error (e, s1)
                  | .ok pf => .ok (pf, s1)
                else
                  match alookup r.supply tid with
                  | none => .error (.keyError, s1)
                  | some stids =>
                    match resolveTasks s1 stids with
                    | .error e => .error (e, s1)
                    | .ok sts =>
                      if 2 ≤ sts.length && sts.any (fun q => q.2.scheduled_finish.isNone)
                      then .error (.typeError, s1)
                      else
                        match sortByFinish sts with
                        | [] => .error (.indexError, s1)
                        | first :: others =>
                          match cancelSurplus fuel s1 others with
                          | .error e => .error e
                          | .ok ((), s2) =>
                            match prevFinish s2 prev with
                            | .error e => .error (e, s2)
                            | .ok pfOpt =>
                              match pfOpt, first.2.scheduled_finish with
                              | some pf, some ff =>
                                let idle : Int := if ff < pf then 0 else ff - pf
                                match getTask s2 tid with
                                | none => .error (.assertionError, s2)
                                | some t2 =>
                                  .ok (some (max pf ff),
                                       setTask s2 tid { t2 with idle_time := idle })
                              | _, _ => .error (.typeError, s2)
              match afterStart with
              | .error e => .error e
              | .ok (startOpt, s3) =>
                match getTask s3 tid with
                | none => .error (.assertionError, s3)
                | some t3 =>
                  let s4 := setTask s3 tid { t3 with scheduled_start := startOpt }
                  match startOpt with
                  | none => .error (.typeError, s4)
                  | some start =>
                    let fin : Int :=
                      if matched then start + p.run_time + p.shutdown_time
                      else start + p.setup_time + p.run_time + p.shutdown_time
                    match getTask s4 tid with
                    | none => .error (.assertionError, s4)
                    | some t4 =>
                      let s5 := setTask s4 tid { t4 with scheduled_finish := some fin }
                      determineLoop rid fuel s5 (.ref tid) rest

/-- `Resource._determine_schedule` (scheduling_problem.py:353-400). -/
def determine_schedule (fuel : Nat) (s : RDNState) (rid : Nat) : PyResult Unit :=
  match getRes s rid with
  | none => .error (.attributeError, s)
  | some r => determineLoop rid fuel s .nullTask r.tasks

/-- `sum(t.scheduled_finish - t.scheduled_start for t in tasks)`
(scheduling_problem.py:410); any unset time raises `TypeError`. -/
def sumActive (s : RDNState) : List Nat → Except PyErr Int
  | [] => .ok 0
  | tid :: rest =>
    match getTask s tid with
    | none => .error .assertionError
    | some t =>
      match t.scheduled_finish, t.scheduled_start with
      | some f, some st =>
        match sumActive s rest with
        | .error e => .error e
        | .ok acc => .ok (f - st + acc)
      | _, _ => .error .typeError

/-- `Resource._lookup_for_improvements` (scheduling_problem.py:402-418):
with no tasks return; otherwise set `idle_time` to the last finish minus
the summed active time.  The improvement loop itself is a `pass`. -/
def lookup_for_improvements (s : RDNState) (rid : Nat) : PyResult Unit :=
  match getRes s rid with
  | none => .error (.attributeError, s)
  | some r =>
    match r.tasks.getLast? with
    | none => .ok ((), s)
    | some lastTid =>
      match getTask s lastTid with
      | none => .error (.assertionError, s)
      | some lastT =>
        match sumActive s r.tasks with
        | .error e => .error (e, s)
        | .ok active =>
          match lastT.scheduled_finish with
          | none => .error (.typeError, s)
          | some fin =>
            .ok ((), setRes s rid { r with idle_time := fin - active })

/-- `Resource.schedule` (scheduling_problem.py:294-301): raise
`AttributeError` when not attached to an RDN; return early when
`_awaiting_supply_schedule` reports waiting; otherwise lay out the
sequence and run the improvement accounting. -/
def scheduleRes (fuel : Nat) (s : RDNState) (rid : Nat) : PyResult Unit :=
  match getRes s rid with
  | none => .error (.attributeError, s)
  | some r =>
    if !r.hasRdn then .error (.attributeError, s)
    else
      match awaiting_supply_schedule rid fuel s with
      | .error e => .error e
      | .ok (true, s1) => .ok ((), s1)
      | .ok (false, s1) =>
        match determine_schedule fuel s1 rid with
        | .error e => .error e
        | .ok ((), s2) => lookup_for_improvements s2 rid

/-- `Resource.finish_time` (scheduling_problem.py:229-233): 0 with no
tasks; otherwise `max` of the scheduled finishes, where comparing `None`
against a number raises `TypeError` (a single unset value is returned
as-is, since `max` of one element performs no comparison). -/
def finish_time (s : RDNState) (r : ResourceData) : Except PyErr (Option Int) :=
  match r.tasks with
  | [] => .ok (some 0)
  | tids =>
    match resolveTasks s tids with
    | .error e => .error e
    | .ok ts =>
      match ts with
      | [] => .ok (some 0)
      | [q] => .ok q.2.scheduled_finish
      | _ =>
        if ts.any fun q => q.2.scheduled_finish.isNone then .error .typeError
        else .ok (some ((ts.map fun q => q.2.scheduled_finish.getD 0).foldl max 0))

/-- Embedding of `ResourceDemandNetwork.schedule`
(scheduling_problem.py:468-502).  The method first resolves every node and
raises `SchedulingError` when there are none.  The seeding loop then
evaluates `resource.mq` — but `Resource.__init__` defines only `id`,
`new_tasks`, `tasks`, `supply`, `processes`, `_rdn` and `idle_time`, so
the attribute access raises `AttributeError` on the first resource, before
any scheduling or queue mutation.  (Had seeding succeeded, line 496 would
still read the undefined global `perfect_result` and raise `NameError`.) -/
def rdnSchedule (s : RDNState) : PyResult Unit :=
  let resources := s.nodes.map fun rid => getRes s rid
  if resources.isEmpty then .error (.schedulingError, s)
  else .error (.attributeError, s)

end SchedulingProblem

namespace FlowHash

open SchedulingProblem (PyErr setA)

/-- A node object of the hash graph, the dict
`{original_hash: original_id, new_hash: digest-or-None}`
(hashgraph.py:141,154). -/
structure HNode where
  original : Nat
  newHash : Option String
  deriving DecidableEq, Repr

/-- The hash graph under construction: node objects keyed by node id in
insertion order, plus the edges added during the traversal. -/
structure HGraph where
  nodes : List (Nat × HNode) := []
  edges : List (Nat × Nat) := []
  deriving DecidableEq, Repr

/-- Modelled from the spec: the input of `flow_graph_hash` is an instance
of the external `Graph` container (graph/__init__.py is not under src/) —
a directed graph given by its node ids and directed edges, queried through
`nodes(in_degree=0)`, `nodes(to_node=)`, `nodes(from_node=)`,
`nodes(out_degree=0)` and `depth_first_search`. -/
structure InGraph where
  nodes : List Nat := []
  edges : List (Nat × Nat) := []
  deriving DecidableEq, Repr

/-- Modelled from the spec: `nodes(to_node=v)` — the predecessors of `v`,
in edge insertion order. -/
def predecessors (g : InGraph) (v : Nat) : List Nat :=
  (g.edges.filter fun e => e.2 == v).map Prod.fst

/-- Modelled from the spec: `nodes(from_node=v)` — the successors of `v`,
in edge insertion order. -/
def successors (g : InGraph) (v : Nat) : List Nat :=
  (g.edges.filter fun e => e.1 == v).map Prod.snd

/-- One breadth-first expansion step over the edge list. -/
def expandOnce (edges : List (Nat × Nat)) (acc : List Nat) : List Nat :=
  edges.foldl (fun a e => if a.contains e.1 && !(a.contains e.2) then a ++ [e.2] else a) acc

/-- Iterated expansion. -/
def reachIter (edges : List (Nat × Nat)) : Nat → List Nat → List Nat
  | 0, acc => acc
  | n + 1, acc => reachIter edges n (expandOnce edges acc)

/-- Modelled from the spec: `depth_first_search(start=a, end=b)` of the
external `Graph` container — truthy iff a path `a → … → b` exists (the
start reaches itself, so a supplier equal to the popped node — possible
only via a self-loop — is treated as on a cycle). -/
def depth_first_search (g : InGraph) (a b : Nat) : Bool :=
  (reachIter g.edges (g.nodes.length + 1) [a]).contains b

/-- Modelled from the spec: the incremental hash primitive (sha3-256 in
the source).  The digest is rendered as the visible concatenation of the
absorbed strings — deterministic and injective, which is all the claims
exercise. -/
def hashDigest (absorbed : List String) : String :=
  "sha3(" ++ String.intercalate "," absorbed ++ ")"

def hgNode (hg : HGraph) (v : Nat) : Option HNode :=
  SchedulingProblem.alookup hg.nodes v

def hgSet (hg : HGraph) (v : Nat) (n : HNode) : HGraph :=
  { hg with nodes := setA hg.nodes v n }

/-- The supplier absorption loop (hashgraph.py:133-137): a supplier the
popped node can reach is on a cycle and is skipped; otherwise its
`new_hash` is absorbed.  Looking up a supplier absent from the hash graph
yields `None` and subscripting it raises `TypeError`, as does encoding a
`None` hash with `bytes(..., 'utf-8')`. -/
def absorbSuppliers (g : InGraph) (hg : HGraph) (source : Nat) :
    List Nat → Except PyErr (List String)
  | [] => .ok []
  | u :: rest =>
    if depth_first_search g source u then absorbSuppliers g hg source rest
    else
      match hgNode hg u with
      | none => .error .typeError
      | some d =>
        match d.newHash with
        | none => .error .typeError
        | some h =>
          match absorbSuppliers g hg source rest with
          | .error e => .error e
          | .ok tail => .ok (h :: tail)

/-- The receiver loop (hashgraph.py:147-158): an already-visited receiver
is skipped entirely — in particular no edge `source → receiver` is added
for it; a first-seen receiver is marked visited, created in the hash graph
with `new_hash: None` if absent, linked from `source`, and appended to the
work list if not already queued. -/
def processReceivers (source : Nat) :
    HGraph → List Nat → List Nat → List Nat → HGraph × List Nat × List Nat
  | hg, visited, wl, [] => (hg, visited, wl)
  | hg, visited, wl, rcv :: rest =>
    if visited.contains rcv then processReceivers source hg visited wl rest
    else
      let visited1 := visited ++ [rcv]
      let hg1 := if (hgNode hg rcv).isSome then hg
                 else { hg with nodes := hg.nodes ++ [(rcv, ⟨rcv, none⟩)] }
      let hg2 := { hg1 with edges := hg1.edges ++ [(source, rcv)] }
      let wl1 := if wl.contains rcv then wl else wl ++ [rcv]
      processReceivers source hg2 visited1 wl1 rest

/-- The work-list loop of `flow_graph_hash` (hashgraph.py:125-158): pop
the front node, absorb `str(node)` and the hashes of its non-cycle
suppliers, insert or update its hash-graph node with the digest, then
process its receivers.  Fuel bounds the loop; each node enters the work
list at most once, so `|nodes| + |initial sources|` always suffices. -/
def flowLoop (g : InGraph) : Nat → HGraph → List Nat → List Nat → Except PyErr HGraph
  | _, hg, _, [] => .ok hg
  | 0, _, _, _ :: _ => .error .outOfFuel
  | fuel + 1, hg, visited, source :: wl =>
    match absorbSuppliers g hg source (predecessors g source) with
    | .error e => .error e
    | .ok hs =>
      let digest := hashDigest (toString source :: hs)
      let hg1 :=
        match hgNode hg source with
        | none => { hg with nodes := hg.nodes ++ [(source, ⟨source, some digest⟩)] }
        | some n => hgSet hg source { n with newHash := some digest }
      let (hg2, visited1, wl1) := processReceivers source hg1 visited wl (successors g source)
      flowLoop g fuel hg2 visited1 wl1

/-- The final sink assertion (hashgraph.py:160-162): each sink of the
input is looked up in the hash graph (a missing node yields `None` and
subscripting raises `TypeError`) and its `new_hash` must not be `None`
(else `AssertionError`). -/
def checkSinks (hg : HGraph) : List Nat → Except PyErr Unit
  | [] => .ok ()
  | v :: rest =>
    match hgNode hg v with
    | none => .error .typeError
    | some n =>
      match n.newHash with
      | none => .error .assertionError
      | some _ => checkSinks hg rest

/-- `flow_graph_hash` (hashgraph.py:110-164): seed the work list with the
in-degree-0 sources, run the hashing loop, then assert every sink of the
input carries a non-null hash. -/
def flow_graph_hash (fuel : Nat) (g : InGraph) : Except PyErr HGraph :=
  let srcs := g.nodes.filter fun v => !(g.edges.any fun e => e.2 == v)
  match flowLoop g fuel {} [] srcs with
  | .error e => .error e
  | .ok hg =>
    match checkSinks hg (g.nodes.filter fun v => !(g.edges.any fun e => e.1 == v)) with
    | .error e => .error e
    | .ok () => .ok hg

/-- The graph of `test_flow_graph_async_01` (hashgraph.py:213-227): edges
1→2, 2→4, 3→4. -/
def asyncGraph : InGraph := { nodes := [1, 2, 3, 4], edges := [(1, 2), (2, 4), (3, 4)] }

end FlowHash

namespace SchedulingProblem

/-- A network holding a single freshly constructed resource. -/
def oneResourceState : RDNState := { nodes := [0], res := [(0, {})] }

/-- A resource with one inbox task matched by an input-free process (the
configuration of spec scenario 4, first notification). -/
def sortCrashState : RDNState :=
  { nodes := [0],
    res := [(0, { new_tasks := [0], hasRdn := true,
                  processes := [{ outputs := [("x", 1)], setup_time := 1,
                                  run_time := 2, shutdown_time := 1 }] })],
    taskHeap := [(0, { id := 0, requires := [("x", 1)] })],
    nextTaskId := 1 }

/-- `sortCrashState` after its inbox task has been popped into `tasks`. -/
def sortCrashStateAfter : RDNState :=
  { nodes := [0],
    res := [(0, { tasks := [0], hasRdn := true,
                  processes := [{ outputs := [("x", 1)], setup_time := 1,
                                  run_time := 2, shutdown_time := 1 }] })],
    taskHeap := [(0, { id := 0, requires := [("x", 1)] })],
    nextTaskId := 1 }

/-- A consumer (0) whose process needs input `a`, wired to two suppliers
(1 and 2) that produce `a`, with one `b`-task in the consumer's inbox
(spec scenario 6 at the moment the RDN first notifies the consumer). -/
def fanOutState : RDNState :=
  { nodes := [0, 1, 2],
    edges := [(0, 1), (0, 2)],
    res := [(0, { new_tasks := [0], hasRdn := true,
                  processes := [{ inputs := [("a", 1)], outputs := [("b", 1)] }] }),
            (1, { hasRdn := true, processes := [{ outputs := [("a", 1)] }] }),
            (2, { hasRdn := true, processes := [{ outputs := [("a", 1)] }] })],
    taskHeap := [(0, { id := 0, requires := [("b", 1)] })],
    nextTaskId := 1 }

/-- A consumer (0) that has fanned out one supply task (id 1) to supplier
1 and waits for it: the supply task's scheduled times are still unset. -/
def waitingState : RDNState :=
  { nodes := [0, 1],
    edges := [(0, 1)],
    res := [(0, { tasks := [0], supply := [(0, [1])], hasRdn := true,
                  processes := [{ inputs := [("a", 1)], outputs := [("b", 1)] }] }),
            (1, { tasks := [1], hasRdn := true,
                  processes := [{ outputs := [("a", 1)] }] })],
    taskHeap := [(0, { id := 0, requires := [("b", 1)] }),
                 (1, { id := 1, requires := [("a", 1)], client := some 0, supplier := some 1 })],
    nextTaskId := 2 }

/-- A three-stage chain 0 → 1 → 2: the middle resource 1 holds the supply
task 1 (created by 0, `supplier = 1`) in `tasks` and has itself fanned out
the second-stage supply task 2 (`supplier = 2`) to resource 2, whose inbox
still holds it. -/
def cascadeState : RDNState :=
  { nodes := [0, 1, 2],
    edges := [(0, 1), (1, 2)],
    res := [(0, { hasRdn := true,
                  processes := [{ inputs := [("a", 1)], outputs := [("b", 1)] }] }),
            (1, { tasks := [1], supply := [(1, [2])], hasRdn := true,
                  processes := [{ inputs := [("c", 1)], outputs := [("a", 1)] }] }),
            (2, { new_tasks := [2], hasRdn := true,
                  processes := [{ outputs := [("c", 1)] }] })],
    taskHeap := [(1, { id := 1, requires := [("a", 1)], client := some 0, supplier := some 1 }),
                 (2, { id := 2, requires := [("c", 1)], client := some 1, supplier := some 2 })],
    nextTaskId := 3 }

/-- `cascadeState` after `remove_task` on resource 1 with task 1: task 1
has left resource 1's lists, but the recorded supply task 2 still sits in
resource 2's inbox, resource 1's supply entry survives, and the
notification went to resource 1 (`task.supplier`), not to resource 2. -/
def cascadeStateAfter : RDNState :=
  { cascadeState with
    res := [(0, { hasRdn := true,
                  processes := [{ inputs := [("a", 1)], outputs := [("b", 1)] }] }),
            (1, { supply := [(1, [2])], hasRdn := true,
                  processes := [{ inputs := [("c", 1)], outputs := [("a", 1)] }] }),
            (2, { new_tasks := [2], hasRdn := true,
                  processes := [{ outputs := [("c", 1)] }] })],
    task_queue := [1] }

/-- A resource with two committed identical source tasks (spec scenario 4:
the configuration Phase B is supposed to lay out with a change-over). -/
def phaseBState : RDNState :=
  { nodes := [0],
    res := [(0, { tasks := [0, 1], hasRdn := true,
                  processes := [{ outputs := [("x", 1)], setup_time := 1,
                                  run_time := 2, shutdown_time := 1 }] })],
    taskHeap := [(0, { id := 0, requires := [("x", 1)] }),
                 (1, { id := 1, requires := [("x", 1)] })],
    nextTaskId := 2 }

/-- A consumer (0) holding task 0 (with input `a`) whose supply list has
two committed supply tasks, one at supplier 1 (finish 3) and one at
supplier 2 (finish 5) — the exact configuration of the supply-alignment
step of Phase B. -/
def alignState : RDNState :=
  { nodes := [0, 1, 2],
    edges := [(0, 1), (0, 2)],
    res := [(0, { tasks := [0], supply := [(0, [1, 2])], hasRdn := true,
                  processes := [{ inputs := [("a", 1)], outputs := [("b", 1)],
                                  run_time := 1 }] }),
            (1, { tasks := [1], hasRdn := true,
                  processes := [{ outputs := [("a", 1)], run_time := 3 }] }),
            (2, { tasks := [2], hasRdn := true,
                  processes := [{ outputs := [("a", 1)], run_time := 5 }] })],
    taskHeap := [(0, { id := 0, requires := [("b", 1)] }),
                 (1, { id := 1, requires := [("a", 1)], client := some 0, supplier := some 1,
                       scheduled_start := some 0, scheduled_finish := some 3 }),
                 (2, { id := 2, requires := [("a", 1)], client := some 0, supplier := some 2,
                       scheduled_start := some 0, scheduled_finish := some 5 })],
    nextTaskId := 3 }

/-- A resource holding two distinct task objects (ids 0 and 1) that demand
the same commodity key set. -/
def twinTasksState : RDNState :=
  { nodes := [0],
    res := [(0, { tasks := [0, 1], hasRdn := true,
                  processes := [{ outputs := [("x", 1)] }] })],
    taskHeap := [(0, { id := 0, requires := [("x", 1)] }),
                 (1, { id := 1, requires := [("x", 1)] })],
    nextTaskId := 2 }

/-- A resource that was never attached to an RDN, with a matching task in
the heap. -/
def detachedState : RDNState :=
  { nodes := [0],
    res := [(0, { processes := [{ outputs := [("x", 1)] }] })],
    taskHeap := [(0, { id := 0, requires := [("x", 1)] })],
    nextTaskId := 1 }

/-- Every `supply` entry of every resource of `s` is still present, with
the same recorded list, in `s'` — the supply bookkeeping is never
deleted.  -/
def supplyPreserved (s s' : RDNState) : Prop :=
  ∀ x rx k v, getRes s x = some rx → alookup rx.supply k = some v →
    ∃ rx', getRes s' x = some rx' ∧ alookup rx'.supply k = some v

/-! ### Association-list and state-access lemmas -/

theorem alookup_append_left {α : Type} {l : List (Nat × α)} (l' : List (Nat × α))
    {k : Nat} {v : α} (h : alookup l k = some v) : alookup (l ++ l') k = some v := by
  induction l with
  | nil => simp [alookup] at h
  | cons p rest ih =>
    obtain ⟨a, b⟩ := p
    by_cases hk : k = a
    · simpa [alookup, hk] using h
    · simp only [alookup, hk, if_false, List.cons_append] at h ⊢
      exact ih h

theorem alookup_append_right {α : Type} {l : List (Nat × α)} (l' : List (Nat × α))
    {k : Nat} (h : alookup l k = none) : alookup (l ++ l') k = alookup l' k := by
  induction l with
  | nil => rfl
  | cons p rest ih =>
    obtain ⟨a, b⟩ := p
    by_cases hk : k = a
    · simp [alookup, hk] at h
    · simp only [alookup, hk, if_false, List.cons_append] at h ⊢
      exact ih h

theorem alookup_updateA_self {α : Type} {l : List (Nat × α)} {k : Nat} (v : α)
    (h : (alookup l k).isSome) : alookup (updateA l k v) k = some v := by
  induction l with
  | nil => simp [alookup] at h
  | cons p rest ih =>
    obtain ⟨a, b⟩ := p
    by_cases hk : a = k
    · subst hk; simp [updateA, alookup]
    · have hk' : ¬ k = a := fun hh => hk hh.symm
      simp only [alookup, hk', if_false] at h
      simp only [updateA, hk, if_false, alookup, hk']
      exact ih h

theorem alookup_updateA_ne {α : Type} {l : List (Nat × α)} {k k' : Nat} (v : α)
    (h : k' ≠ k) : alookup (updateA l k v) k' = alookup l k' := by
  induction l with
  | nil => rfl
  | cons p rest ih =>
    obtain ⟨a, b⟩ := p
    by_cases hk : a = k
    · subst hk
      simp only [updateA, if_pos rfl, alookup, h, if_false]
      exact ih
    · simp only [updateA, hk, if_false, alookup]
      by_cases hka : k' = a
      · simp [hka]
      · simp only [hka, if_false]
        exact ih

theorem alookup_setA_self {α : Type} (l : List (Nat × α)) (k : Nat) (v : α) :
    alookup (setA l k v) k = some v := by
  unfold setA
  cases hl : alookup l k with
  | some w =>
    have hc : ((some w : Option α).isSome = true) := rfl
    rw [if_pos hc]
    exact alookup_updateA_self v (by simp [hl])
  | none =>
    simp only [hl, Option.isSome_none, Bool.false_eq_true, if_false]
    rw [alookup_append_right _ hl]
    simp [alookup]

theorem alookup_setA_ne {α : Type} (l : List (Nat × α)) {k k' : Nat} (v : α)
    (h : k' ≠ k) : alookup (setA l k v) k' = alookup l k' := by
  unfold setA
  cases hl : alookup l k with
  | some w =>
    simpa using alookup_updateA_ne v h
  | none =>
    simp only [hl, Option.isSome_none, Bool.false_eq_true, if_false]
    cases hl' : alookup l k' with
    | none => rw [alookup_append_right _ hl']; simp [alookup, h]
    | some w => rw [alookup_append_left _ hl']

theorem updateA_id {α : Type} {l : List (Nat × α)} {k : Nat} {v : α}
    (h : ∀ p ∈ l, p.1 ≠ k) : updateA l k v = l := by
  induction l with
  | nil => rfl
  | cons p rest ih =>
    obtain ⟨a, b⟩ := p
    have h1 : a ≠ k := h (a, b) (by simp)
    simp only [updateA, h1, if_false]
    rw [ih fun q hq => h q (by simp [hq])]

theorem alookup_some_mem_keys {α : Type} {l : List (Nat × α)} {k : Nat} {v : α}
    (h : alookup l k = some v) : k ∈ l.map Prod.fst := by
  induction l with
  | nil => simp [alookup] at h
  | cons p rest ih =>
    obtain ⟨a, b⟩ := p
    by_cases hk : k = a
    · simp [hk]
    · simp only [alookup, hk, if_false] at h
      simp [ih h]

theorem updateA_eq_self {α : Type} {l : List (Nat × α)} {k : Nat} {v : α}
    (hnd : (l.map Prod.fst).Nodup) (h : alookup l k = some v) : updateA l k v = l := by
  induction l with
  | nil => simp [alookup] at h
  | cons p rest ih =>
    obtain ⟨a, b⟩ := p
    simp only [List.map_cons, List.nodup_cons] at hnd
    by_cases hk : a = k
    · subst hk
      simp only [alookup, eq_self_iff_true, if_true, Option.some.injEq] at h
      subst h
      simp only [updateA, eq_self_iff_true, if_true]
      have hrest : updateA rest a b = rest :=
        updateA_id fun q hq hqk => hnd.1 (by rw [← hqk]; exact List.mem_map_of_mem Prod.fst hq)
      rw [hrest]
    · have hk' : ¬ k = a := fun hh => hk hh.symm
      simp only [alookup, hk', if_false] at h
      simp only [updateA, hk, if_false]
      rw [ih hnd.2 h]

theorem setA_eq_self {α : Type} {l : List (Nat × α)} {k : Nat} {v : α}
    (hnd : (l.map Prod.fst).Nodup) (h : alookup l k = some v) : setA l k v = l := by
  unfold setA
  rw [h]
  simp only [Option.isSome_some, if_true]
  exact updateA_eq_self hnd h

theorem getRes_setRes_self (s : RDNState) (rid : Nat) (r : ResourceData) :
    getRes (setRes s rid r) rid = some r := alookup_setA_self s.res rid r

theorem getRes_setRes_ne (s : RDNState) {x rid : Nat} (r : ResourceData) (h : x ≠ rid) :
    getRes (setRes s rid r) x = getRes s x := alookup_setA_ne s.res r h

theorem getTask_setRes (s : RDNState) (rid : Nat) (r : ResourceData) (tid : Nat) :
    getTask (setRes s rid r) tid = getTask s tid := rfl

theorem getRes_setTask (s : RDNState) (tid : Nat) (t : Task) (rid : Nat) :
    getRes (setTask s tid t) rid = getRes s rid := rfl

theorem getRes_notify (s : RDNState) (x rid : Nat) :
    getRes (notify s x) rid = getRes s rid := by
  unfold notify
  split <;> rfl

theorem getTask_notify (s : RDNState) (x tid : Nat) :
    getTask (notify s x) tid = getTask s tid := by
  unfold notify
  split <;> rfl

theorem setRes_eq_self {s : RDNState} {rid : Nat} {r : ResourceData}
    (hnd : (s.res.map Prod.fst).Nodup) (h : getRes s rid = some r) :
    setRes s rid r = s := by
  unfold setRes
  rw [setA_eq_self hnd h]

/-! ### C9 — scheduling with no resources -/

/-- C9: `ResourceDemandNetwork.schedule()` invoked on a network that
contains no resources raises `SchedulingError` before anything else
happens. -/
theorem C9_schedule_no_resources_scheduling_error (s : RDNState) (h : s.nodes = []) :
    rdnSchedule s = .error (.schedulingError, s) := by
  simp [rdnSchedule, h]

theorem C9_witness :
    ({} : RDNState).nodes = [] ∧
    rdnSchedule {} = .error (.schedulingError, {}) :=
  ⟨rfl, C9_schedule_no_resources_scheduling_error {} rfl⟩

/-! ### C1 — the driver loop -/

/-- C1 (code bug): on any network with at least one resource,
`ResourceDemandNetwork.schedule()` raises `AttributeError` while seeding
the queue, because the loop reads `resource.mq` and `Resource` defines no
attribute `mq`; none of the claimed seeding, fixed-point draining or
best-makespan recording is reachable (line 496 additionally references
the undefined global `perfect_result`). -/
theorem C1_schedule_reads_undefined_mq (s : RDNState) (h : s.nodes ≠ []) :
    rdnSchedule s = .error (.attributeError, s) := by
  cases hn : s.nodes with
  | nil => exact absurd hn h
  | cons a l => simp [rdnSchedule, hn]

theorem C1_witness :
    oneResourceState.nodes ≠ [] ∧
    rdnSchedule oneResourceState = .error (.attributeError, oneResourceState) :=
  ⟨by decide, C1_schedule_reads_undefined_mq oneResourceState (by decide)⟩

/-! ### C4 — the Phase A sort -/

/-- C4 (code bug): with an empty inbox (after popping the one input-free
task) and empty `supply`, the Phase-A tail evaluates the sort key
`(t.runtime, t.name, t.id)` on the non-empty committed task list; `Task`
defines neither `runtime` nor `name`, so the call raises `AttributeError`
instead of sorting and proceeding to Phase B.  The carried state shows
the inbox task already moved into `tasks`. -/
theorem C4_sort_key_attribute_error :
    awaiting_supply_schedule 0 2 sortCrashState =
      .error (.attributeError, sortCrashStateAfter) := rfl

/-! ### C6 — the change-over fold -/

/-- C6 (code bug): Phase B initialises `previous_task` to the `NullTask`
class and its first loop iteration evaluates `previous_task == task`;
Python reflects that comparison into `Task.__eq__`, which raises
`NotImplementedError` for an operand that is neither `Task` nor `Process`.
So whenever the committed task list is non-empty (with a matching
process), `_determine_schedule` raises before any change-over fold or any
start/finish assignment, and the carried state is unchanged. -/
theorem determine_schedule_head_raises (fuel : Nat) (s : RDNState) (rid tid : Nat)
    (rest : List Nat) (r : ResourceData) (t : Task) (p : Process)
    (hr : getRes s rid = some r) (htasks : r.tasks = tid :: rest)
    (ht : getTask s tid = some t) (hp : get_process r t = some p) :
    determine_schedule fuel s rid = .error (.notImplementedError, s) := by
  have h1 : determine_schedule fuel s rid = determineLoop rid fuel s .nullTask r.tasks := by
    unfold determine_schedule
    rw [hr]
  rw [h1, htasks]
  simp only [determineLoop, hr, ht, hp, prevEq]

theorem C6_sentinel_comparison_raises (fuel : Nat) (s : RDNState) (rid tid : Nat)
    (rest : List Nat) (r : ResourceData) (t : Task) (p : Process)
    (hr : getRes s rid = some r) (htasks : r.tasks = tid :: rest)
    (ht : getTask s tid = some t) (hp : get_process r t = some p) :
    determine_schedule fuel s rid = .error (.notImplementedError, s) :=
  determine_schedule_head_raises fuel s rid tid rest r t p hr htasks ht hp

theorem C6_witness :
    determine_schedule 10 phaseBState 0 = .error (.notImplementedError, phaseBState) :=
  C6_sentinel_comparison_raises 10 phaseBState 0 0 [1] _ _ _ rfl rfl rfl rfl

/-! ### C3 — the supply-alignment step of Phase B -/

/-- C3 counterexample: at a concrete state squarely inside the claim's
scope — the consumer's task 0 has non-empty process inputs and its supply
list holds two committed supply tasks (finishes 3 and 5) at two suppliers
— Phase B raises `NotImplementedError` at once, so no sorting, no surplus
cancellation, no idle-time and no start assignment happen, and `supply[t]`
still holds both recorded supply tasks. -/
theorem C3_counterexample :
    (getRes alignState 0).map (fun q => alookup q.supply 0) = some (some [1, 2]) ∧
    determine_schedule 10 alignState 0 = .error (.notImplementedError, alignState) :=
  ⟨rfl, rfl⟩

/-- C3 (amended): in the code as written the supply-alignment step is
unreachable — for a resource whose committed list starts with a task `t`
whose matching process has inputs and whose supply entry exists,
`_determine_schedule` raises `NotImplementedError` at the sentinel
comparison before the alignment, leaving the state (in particular the
full `supply[t]` list and all suppliers' task lists) untouched. -/
theorem C3_supply_alignment_unreachable (fuel : Nat) (s : RDNState) (rid tid : Nat)
    (rest : List Nat) (r : ResourceData) (t : Task) (p : Process) (stids : List Nat)
    (hr : getRes s rid = some r) (htasks : r.tasks = tid :: rest)
    (ht : getTask s tid = some t) (hp : get_process r t = some p)
    (_hin : p.inputs ≠ []) (hsup : alookup r.supply tid = some stids) :
    determine_schedule fuel s rid = .error (.notImplementedError, s) ∧
    (getRes s rid).map (fun q => alookup q.supply tid) = some (some stids) := by
  refine ⟨determine_schedule_head_raises fuel s rid tid rest r t p hr htasks ht hp, ?_⟩
  rw [hr]
  simp [hsup]

theorem C3_witness :
    determine_schedule 10 alignState 0 = .error (.notImplementedError, alignState) ∧
    (getRes alignState 0).map (fun q => alookup q.supply 0) = some (some [1, 2]) :=
  C3_supply_alignment_unreachable 10 alignState 0 0 [] _ _ _ [1, 2]
    rfl rfl rfl rfl (by decide) rfl

/-! ### C10 — equality as key-set matching -/

theorem removeFirstEq_no_match {s : RDNState} {t : Task} {l : List Nat}
    (h : ∀ x ∈ l, ∀ u, getTask s x = some u → taskEqTask t u = false) :
    removeFirstEq s t l = l := by
  induction l with
  | nil => rfl
  | cons x xs ih =>
    have hrest := ih fun y hy => h y (List.mem_cons_of_mem x hy)
    cases hx : getTask s x with
    | none => simp only [removeFirstEq, hx, hrest]
    | some u =>
      simp only [removeFirstEq, hx, h x (by simp) u hx, Bool.false_eq_true, if_false, hrest]

theorem removeFirstEq_first_match {s : RDNState} {t : Task} {as : List Nat}
    {bid : Nat} {b : Task} (cs : List Nat)
    (has : ∀ x ∈ as, ∀ u, getTask s x = some u → taskEqTask t u = false)
    (hb : getTask s bid = some b) (hbe : taskEqTask t b = true) :
    removeFirstEq s t (as ++ bid :: cs) = as ++ cs := by
  induction as with
  | nil =>
    simp [removeFirstEq, hb, hbe]
  | cons a as ih =>
    have hrest := ih fun y hy => has y (List.mem_cons_of_mem a hy)
    cases ha : getTask s a with
    | none => simp only [List.cons_append, removeFirstEq, ha, List.append_eq, hrest]
    | some u =>
      simp only [List.cons_append, removeFirstEq, ha, has a (by simp) u ha,
        Bool.false_eq_true, if_false, List.append_eq, hrest]

/-- C10: `Task.__eq__` is key-set equality of `requires`, so `remove_task`
removes the *first* task of `tasks` whose requires key set equals the
argument's — which need not be the argument object itself (the witness
removes a different task object than the one passed) — and likewise for
`new_tasks`; and comparing a `Task` against a value that is neither a
`Task` nor a `Process` raises `NotImplementedError` instead of returning
false. -/
theorem C10_remove_acts_on_first_keyset_match
    (s : RDNState) (rid tid : Nat) (t b : Task) (r : ResourceData) (fuel : Nat)
    (as cs : List Nat) (bid : Nat)
    (ht : getTask s tid = some t) (hr : getRes s rid = some r)
    (htasks : r.tasks = as ++ bid :: cs)
    (has : ∀ x ∈ as, ∀ u, getTask s x = some u → taskEqTask t u = false)
    (hb : getTask s bid = some b) (hbe : taskEqTask t b = true)
    (hnn : ∀ x ∈ r.new_tasks, ∀ u, getTask s x = some u → taskEqTask t u = false)
    (hsup : alookup r.supply tid = none) :
    remove_task (fuel + 1) s rid tid =
      .ok ((), setRes s rid { r with tasks := as ++ cs }) ∧
    taskEqTask t b = keySetEq (dictKeys t.requires) (dictKeys b.requires) ∧
    (∀ u : Task, taskEqValue u .other = .error .notImplementedError) := by
  refine ⟨?_, rfl, fun u => rfl⟩
  have e1 : removeFirstEq s t r.tasks = as ++ cs := by
    rw [htasks]
    exact removeFirstEq_first_match cs has hb hbe
  have e2 : removeFirstEq s t r.new_tasks = r.new_tasks := removeFirstEq_no_match hnn
  unfold remove_task
  rw [ht, hr]
  simp only [e1, e2, hsup]

theorem C10_witness :
    remove_task 5 twinTasksState 0 1 =
      .ok ((), setRes twinTasksState 0
        { tasks := [1], hasRdn := true, processes := [{ outputs := [("x", 1)] }] }) ∧
    (0 : Nat) ≠ 1 :=
  ⟨(C10_remove_acts_on_first_keyset_match twinTasksState 0 1 _ _ _ 4 [] [1] 0
      rfl rfl rfl (by simp) rfl rfl (by simp) rfl).1,
   by decide⟩

/-! ### C5 — the remove_task cascade -/

theorem supplyPreserved_refl (s : RDNState) : supplyPreserved s s :=
  fun _ rx _ _ hx hk => ⟨rx, hx, hk⟩

theorem supplyPreserved_trans {a b c : RDNState}
    (h1 : supplyPreserved a b) (h2 : supplyPreserved b c) : supplyPreserved a c := by
  intro x rx k v hx hk
  obtain ⟨rx1, hx1, hk1⟩ := h1 x rx k v hx hk
  exact h2 x rx1 k v hx1 hk1

theorem supplyPreserved_setRes {s : RDNState} {rid : Nat} {r : ResourceData}
    (r1 : ResourceData) (hr : getRes s rid = some r) (hsup : r1.supply = r.supply) :
    supplyPreserved s (setRes s rid r1) := by
  intro x rx k v hx hk
  by_cases hxr : x = rid
  · subst hxr
    refine ⟨r1, getRes_setRes_self s x r1, ?_⟩
    have hrx : rx = r := Option.some.inj (hx.symm.trans hr)
    rw [hsup, ← hrx]
    exact hk
  · exact ⟨rx, by rw [getRes_setRes_ne s r1 hxr]; exact hx, hk⟩

theorem supplyPreserved_notify (s : RDNState) (x0 : Nat) : supplyPreserved s (notify s x0) := by
  intro x rx k v hx hk
  exact ⟨rx, by rw [getRes_notify]; exact hx, hk⟩

theorem remove_task_supply_preserved : ∀ fuel (s : RDNState) (rid tid : Nat) (s1 : RDNState),
    remove_task fuel s rid tid = .ok ((), s1) → supplyPreserved s s1 := by
  intro fuel
  induction fuel with
  | zero =>
    intro s rid tid s1 h
    exact absurd h (by simp [remove_task])
  | succ n ihP =>
    have Qn : ∀ (l : List Nat) (s : RDNState) (t : Task) (s1 : RDNState),
        removeCascadeF (fun a b c => remove_task n a b c) t s l = .ok ((), s1) →
          supplyPreserved s s1 := by
      intro l
      induction l with
      | nil =>
        intro s t s1 h
        simp only [removeCascadeF, Except.ok.injEq, Prod.mk.injEq, true_and] at h
        rw [← h]
        exact supplyPreserved_refl s
      | cons stid rest ihl =>
        intro s t s1 h
        simp only [removeCascadeF] at h
        cases hsup2 : t.supplier with
        | none => simp only [hsup2] at h; exact Except.noConfusion h
        | some supId =>
          simp only [hsup2] at h
          cases hgr : getRes s supId with
          | none => simp only [hgr] at h; exact Except.noConfusion h
          | some rsup =>
            simp only [hgr] at h
            cases hrt : remove_task n s supId stid with
            | error e => simp only [hrt] at h; exact Except.noConfusion h
            | ok pr =>
              obtain ⟨u, s2⟩ := pr
              cases u
              simp only [hrt] at h
              exact supplyPreserved_trans
                (supplyPreserved_trans (ihP s supId stid s2 hrt) (supplyPreserved_notify s2 supId))
                (ihl (notify s2 supId) t s1 h)
    intro s rid tid s1 h
    cases hgt : getTask s tid with
    | none => simp only [remove_task, hgt] at h; exact Except.noConfusion h
    | some t =>
      cases hgr : getRes s rid with
      | none => simp only [remove_task, hgt, hgr] at h; exact Except.noConfusion h
      | some r =>
        simp only [remove_task, hgt, hgr] at h
        have hpres1 : supplyPreserved s (setRes s rid
            { r with tasks := removeFirstEq s t r.tasks,
                     new_tasks := removeFirstEq s t r.new_tasks }) :=
          supplyPreserved_setRes _ hgr rfl
        cases hsp : alookup r.supply tid with
        | none =>
          rw [hsp] at h
          simp only [Except.ok.injEq, Prod.mk.injEq, true_and] at h
          rw [← h]
          exact hpres1
        | some stids =>
          rw [hsp] at h
          exact supplyPreserved_trans hpres1 (Qn stids _ t s1 h)

/-- C5 counterexample: a middle resource (1) holds task 1 and recorded
the supply task 2 it had emitted to resource 2.  `remove_task(task 1)` on
resource 1 drops task 1 from its lists, but the cascade resolves
`network.node(task.supplier)` — which is resource 1 itself, because the
*removed* task's supplier is consulted instead of each supply task's —
so the supply task 2 is still in resource 2's inbox afterwards, resource
1's `supply` entry survives (an orphan), and the notification went to
resource 1 rather than to the affected supplier 2. -/
theorem C5_counterexample :
    remove_task 10 cascadeState 1 1 = .ok ((), cascadeStateAfter) ∧
    (getRes cascadeStateAfter 2).map ResourceData.new_tasks = some [2] ∧
    (getRes cascadeStateAfter 1).map (fun q => alookup q.supply 1) = some (some [2]) ∧
    cascadeStateAfter.task_queue = [1] :=
  ⟨rfl, rfl, rfl, rfl⟩

/-- C5 (amended): `remove_task(t)` removes the first requires-key-set
equal member from `tasks` and from `new_tasks`, and is a no-op on a task
with no such member and no `supply` entry; but the `supply` entry keyed by
the removed task is never deleted — on any successful call, every
recorded `supply` entry of every resource survives with its full recorded
list — and the cascade consults `network.node(task.supplier)` (the
removed task's supplier) rather than each supply task's supplier, so
supply tasks held by other resources survive (see the counterexample). -/
theorem C5_remove_task_noop_and_orphans (fuel : Nat) (s : RDNState) (rid tid : Nat) :
    (∀ t r, (s.res.map Prod.fst).Nodup → getTask s tid = some t → getRes s rid = some r →
      (∀ x ∈ r.tasks, ∀ u, getTask s x = some u → taskEqTask t u = false) →
      (∀ x ∈ r.new_tasks, ∀ u, getTask s x = some u → taskEqTask t u = false) →
      alookup r.supply tid = none →
      remove_task (fuel + 1) s rid tid = .ok ((), s)) ∧
    (∀ s1, remove_task fuel s rid tid = .ok ((), s1) → supplyPreserved s s1) := by
  constructor
  · intro t r hnd hgt hgr h1 h2 hsp
    have e1 := removeFirstEq_no_match h1
    have e2 := removeFirstEq_no_match h2
    simp only [remove_task, hgt, hgr, e1, e2, hsp]
    rw [setRes_eq_self hnd hgr]
  · intro s1 h
    exact remove_task_supply_preserved fuel s rid tid s1 h

theorem C5_witness :
    remove_task 3 detachedState 0 0 = .ok ((), detachedState) ∧
    (∃ rx, getRes cascadeStateAfter 1 = some rx ∧ alookup rx.supply 1 = some [2]) :=
  ⟨(C5_remove_task_noop_and_orphans 2 detachedState 0 0).1 _ _
      (by decide) rfl rfl (by simp) (by simp) rfl,
   (C5_remove_task_noop_and_orphans 10 cascadeState 1 1).2 cascadeStateAfter rfl
      1 _ 1 [2] rfl rfl⟩

/-! ### C8 — add_task -/

/-- C8: `Resource.add_task(t)` raises `ValueError` when the resource is
not attached to an RDN and when no installed process matches the task by
output key set, and in both cases the carried state is the entry state,
untouched; otherwise it appends the task to `new_tasks` and inserts this
resource's id into the RDN's notification queue (ordered-set semantics),
leaving every other component of the state unchanged. -/
theorem C8_add_task_checks_then_appends_and_notifies
    (s : RDNState) (rid tid : Nat) (t : Task) (r : ResourceData)
    (ht : getTask s tid = some t) (hr : getRes s rid = some r) :
    (r.hasRdn = false → add_task s rid tid = .error (.valueError, s)) ∧
    (r.hasRdn = true → (∀ q ∈ r.processes, procEqTask q t = false) →
      add_task s rid tid = .error (.valueError, s)) ∧
    (r.hasRdn = true → ∀ q, q ∈ r.processes → procEqTask q t = true →
      ∃ s1, add_task s rid tid = .ok ((), s1) ∧
        getRes s1 rid = some { r with new_tasks := r.new_tasks ++ [tid] } ∧
        s1.task_queue =
          (if s.task_queue.contains rid then s.task_queue else s.task_queue ++ [rid]) ∧
        s1.taskHeap = s.taskHeap ∧ s1.nodes = s.nodes ∧ s1.edges = s.edges ∧
        s1.nextTaskId = s.nextTaskId) := by
  refine ⟨?_, ?_, ?_⟩
  · intro hno
    simp [add_task, ht, hr, hno]
  · intro hyes hnone
    have hany : (r.processes.any fun q => procEqTask q t) = false := by
      rw [List.any_eq_false]
      intro q hq
      simp [hnone q hq]
    simp [add_task, ht, hr, hyes, hany]
  · intro hyes q hq hqt
    have hany : (r.processes.any fun q => procEqTask q t) = true :=
      List.any_eq_true.mpr ⟨q, hq, hqt⟩
    refine ⟨notify (setRes s rid { r with new_tasks := r.new_tasks ++ [tid] }) rid,
      by simp [add_task, ht, hr, hyes, hany], ?_, ?_, ?_, ?_, ?_, ?_⟩
    · rw [getRes_notify, getRes_setRes_self]
    · unfold notify
      have hq1 : (setRes s rid { r with new_tasks := r.new_tasks ++ [tid] }).task_queue
          = s.task_queue := rfl
      rw [hq1]
      split <;> rfl
    · unfold notify; split <;> rfl
    · unfold notify; split <;> rfl
    · unfold notify; split <;> rfl
    · unfold notify; split <;> rfl

theorem C8_witness :
    add_task detachedState 0 0 = .error (.valueError, detachedState) ∧
    add_task fanOutState 1 0 = .error (.valueError, fanOutState) ∧
    (∃ s1, add_task fanOutState 0 0 = .ok ((), s1) ∧
      getRes s1 0 =
        some { new_tasks := [0, 0], hasRdn := true,
               processes := [{ inputs := [("a", 1)], outputs := [("b", 1)] }] } ∧
      s1.task_queue =
        (if fanOutState.task_queue.contains 0 then fanOutState.task_queue
         else fanOutState.task_queue ++ [0]) ∧
      s1.taskHeap = fanOutState.taskHeap ∧ s1.nodes = fanOutState.nodes ∧
      s1.edges = fanOutState.edges ∧ s1.nextTaskId = fanOutState.nextTaskId) :=
  ⟨(C8_add_task_checks_then_appends_and_notifies detachedState 0 0 _ _ rfl rfl).1 rfl,
   (C8_add_task_checks_then_appends_and_notifies fanOutState 1 0 _ _ rfl rfl).2.1 rfl
     (by decide),
   (C8_add_task_checks_then_appends_and_notifies fanOutState 0 0 _ _ rfl rfl).2.2 rfl
     { inputs := [("a", 1)], outputs := [("b", 1)] } (by simp) (by decide)⟩

/-! ### C2 — Phase A: fan-out and waiting -/

theorem alookup_none_of_not_key {α : Type} {l : List (Nat × α)} {k : Nat}
    (h : ∀ p ∈ l, p.1 ≠ k) : alookup l k = none := by
  induction l with
  | nil => rfl
  | cons p rest ih =>
    obtain ⟨a, b⟩ := p
    have ha : a ≠ k := h (a, b) (by simp)
    have hk : ¬ k = a := fun hh => ha hh.symm
    simp only [alookup, hk, if_false]
    exact ih fun q hq => h q (by simp [hq])

theorem alookup_append_singleton_ne {α : Type} {l : List (Nat × α)} {k x : Nat} (v : α)
    (h : x ≠ k) : alookup (l ++ [(k, v)]) x = alookup l x := by
  cases hl : alookup l x with
  | some w => exact alookup_append_left _ hl
  | none =>
    rw [alookup_append_right _ hl]
    simp [alookup, h]

theorem getTask_heap_snoc_fresh {s : RDNState} (t : Task)
    (hfresh : ∀ q ∈ s.taskHeap, q.1 < s.nextTaskId) :
    alookup (s.taskHeap ++ [(s.nextTaskId, t)]) s.nextTaskId = some t := by
  rw [alookup_append_right]
  · simp [alookup]
  · exact alookup_none_of_not_key fun q hq => Nat.ne_of_lt (hfresh q hq)

theorem getTask_heap_snoc_old {s : RDNState} (t : Task) {x : Nat}
    (hx : x ≠ s.nextTaskId) :
    alookup (s.taskHeap ++ [(s.nextTaskId, t)]) x = alookup s.taskHeap x :=
  alookup_append_singleton_ne t hx

theorem allocTask_fst (s : RDNState) (req : List (String × Nat)) (c sup : Option Nat) :
    (allocTask s req c sup).1 = { id := s.nextTaskId, requires := req, client := c, supplier := sup } :=
  rfl

theorem getRes_alloc (s : RDNState) (req : List (String × Nat)) (c sup : Option Nat) (x : Nat) :
    getRes (allocTask s req c sup).2 x = getRes s x := rfl

theorem alloc_nextTaskId (s : RDNState) (req : List (String × Nat)) (c sup : Option Nat) :
    (allocTask s req c sup).2.nextTaskId = s.nextTaskId + 1 := rfl

theorem getTask_alloc_self (s : RDNState) (req : List (String × Nat)) (c sup : Option Nat)
    (hfresh : ∀ q ∈ s.taskHeap, q.1 < s.nextTaskId) :
    getTask (allocTask s req c sup).2 s.nextTaskId = some (allocTask s req c sup).1 :=
  getTask_heap_snoc_fresh _ hfresh

theorem getTask_alloc_old (s : RDNState) (req : List (String × Nat)) (c sup : Option Nat)
    {x : Nat} (hx : x ≠ s.nextTaskId) :
    getTask (allocTask s req c sup).2 x = getTask s x :=
  alookup_append_singleton_ne _ hx

theorem alloc_fresh (s : RDNState) (req : List (String × Nat)) (c sup : Option Nat)
    (hfresh : ∀ q ∈ s.taskHeap, q.1 < s.nextTaskId) :
    ∀ q ∈ (allocTask s req c sup).2.taskHeap, q.1 < (allocTask s req c sup).2.nextTaskId := by
  intro q hq
  simp only [allocTask, List.mem_append, List.mem_singleton] at hq
  rcases hq with hq | hq
  · exact Nat.lt_succ_of_lt (hfresh q hq)
  · rw [hq]
    exact Nat.lt_succ_self _

/-- One iteration of the supply fan-out loop: allocate the supply task
(consuming the next id), append it to `supply[task]`, and run `add_task`
on the supplier (append to its inbox plus a notification). -/
theorem fanOut_cons (rid tid : Nat) (inputs : List (String × Nat)) (s : RDNState)
    (supId : Nat) (rest : List Nat) (r0 rs : ResourceData) (cur : List Nat)
    (hr0 : getRes s rid = some r0) (hcur : alookup r0.supply tid = some cur)
    (hsne : supId ≠ rid) (hrs : getRes s supId = some rs) (hrdn : rs.hasRdn = true)
    (hmatch : (rs.processes.any fun q => keySetEq (dictKeys q.outputs) (dictKeys inputs)) = true)
    (hfresh : ∀ q ∈ s.taskHeap, q.1 < s.nextTaskId) :
    fanOut rid tid inputs s (supId :: rest) =
      fanOut rid tid inputs
        (notify (setRes (setRes (allocTask s inputs (some rid) (some supId)).2
            rid { r0 with supply := setA r0.supply tid (cur ++ [s.nextTaskId]) })
          supId { rs with new_tasks := rs.new_tasks ++ [s.nextTaskId] }) supId) rest := by
  have hA : getRes (allocTask s inputs (some rid) (some supId)).2 rid = some r0 := hr0
  have hB : getRes (setRes (allocTask s inputs (some rid) (some supId)).2
      rid { r0 with supply := setA r0.supply tid (cur ++ [s.nextTaskId]) }) supId = some rs := by
    rw [getRes_setRes_ne _ _ hsne]
    exact hrs
  have hBt : getTask (setRes (allocTask s inputs (some rid) (some supId)).2
      rid { r0 with supply := setA r0.supply tid (cur ++ [s.nextTaskId]) }) s.nextTaskId =
      some ((allocTask s inputs (some rid) (some supId)).1) :=
    getTask_heap_snoc_fresh _ hfresh
  simp only [fanOut, hA, hcur, add_task, allocTask_fst, hBt, hB, hrdn, Bool.not_true,
    Bool.false_eq_true, if_false, procEqTask, hmatch, Bool.not_false, if_true]

theorem notify_taskHeap (s : RDNState) (x : Nat) : (notify s x).taskHeap = s.taskHeap := by
  unfold notify; split <;> rfl

theorem notify_nextTaskId (s : RDNState) (x : Nat) :
    (notify s x).nextTaskId = s.nextTaskId := by
  unfold notify; split <;> rfl

theorem notify_nodes (s : RDNState) (x : Nat) : (notify s x).nodes = s.nodes := by
  unfold notify; split <;> rfl

theorem notify_edges (s : RDNState) (x : Nat) : (notify s x).edges = s.edges := by
  unfold notify; split <;> rfl

theorem notify_queue (s : RDNState) (x : Nat) :
    (notify s x).task_queue =
      if s.task_queue.contains x then s.task_queue else s.task_queue ++ [x] := by
  unfold notify
  split <;> rfl

theorem contains_append_singleton_ne {l : List Nat} {x y : Nat} (h : x ≠ y) :
    (l ++ [y]).contains x = l.contains x := by
  simp only [List.contains_eq_any_beq, List.any_append, List.any_cons, List.any_nil]
  have hxy : (x == y) = false := by simp [h]
  rw [hxy]
  simp

theorem range_shift_cons (n0 k : Nat) :
    n0 :: (List.range k).map (fun j => n0 + 1 + j) = (List.range (k + 1)).map fun j => n0 + j := by
  rw [List.range_succ_eq_map, List.map_cons, List.map_map, Nat.add_zero]
  congr 1
  refine List.map_congr_left fun j _ => ?_
  simp only [Function.comp_apply]
  omega

/-- The supply fan-out loop succeeds and has exactly the claimed effect:
one fresh supply task per supplier (ids drawn consecutively from the
global counter, each carrying `requires = inputs`, `client = rid`,
`supplier` = that resource), each appended to the requesting resource's
`supply[task]` list, each appended to its supplier's inbox, and each
supplier enqueued on the notification queue in order. -/
theorem fanOut_ok (rid tid : Nat) (inputs : List (String × Nat)) :
    ∀ (sups : List Nat) (s : RDNState) (r0 : ResourceData) (cur : List Nat),
    getRes s rid = some r0 →
    alookup r0.supply tid = some cur →
    sups.Nodup →
    (∀ x ∈ sups, x ≠ rid ∧ ∃ rs, getRes s x = some rs ∧ rs.hasRdn = true ∧
      (rs.processes.any fun q => keySetEq (dictKeys q.outputs) (dictKeys inputs)) = true) →
    (∀ q ∈ s.taskHeap, q.1 < s.nextTaskId) →
    ∃ sF, fanOut rid tid inputs s sups = .ok ((), sF) ∧
      (∃ rF, getRes sF rid = some rF ∧
        alookup rF.supply tid =
          some (cur ++ (List.range sups.length).map fun j => s.nextTaskId + j) ∧
        (∀ k2, k2 ≠ tid → alookup rF.supply k2 = alookup r0.supply k2) ∧
        rF.new_tasks = r0.new_tasks ∧ rF.tasks = r0.tasks ∧
        rF.processes = r0.processes ∧ rF.hasRdn = r0.hasRdn) ∧
      sF.nextTaskId = s.nextTaskId + sups.length ∧
      (∀ j, (hj : j < sups.length) → getTask sF (s.nextTaskId + j) =
        some { id := s.nextTaskId + j, requires := inputs, client := some rid,
               supplier := some (sups.get ⟨j, hj⟩) }) ∧
      (∀ j, (hj : j < sups.length) → ∃ rs, getRes s (sups.get ⟨j, hj⟩) = some rs ∧
        getRes sF (sups.get ⟨j, hj⟩) =
          some { rs with new_tasks := rs.new_tasks ++ [s.nextTaskId + j] }) ∧
      sF.task_queue = s.task_queue ++ sups.filter (fun x => !(s.task_queue.contains x)) ∧
      (∀ x, x < s.nextTaskId → getTask sF x = getTask s x) ∧
      (∀ x, x ≠ rid → x ∉ sups → getRes sF x = getRes s x) ∧
      sF.nodes = s.nodes ∧ sF.edges = s.edges := by
  intro sups
  induction sups with
  | nil =>
    intro s r0 cur hr0 hcur hnd hsup hfresh
    refine ⟨s, rfl, ⟨r0, hr0, by simp [hcur], fun k2 _ => rfl, rfl, rfl, rfl, rfl⟩,
      by simp, ?_, ?_, by simp, fun x _ => rfl, fun x _ _ => rfl, rfl, rfl⟩
    · intro j hj
      exact absurd hj (Nat.not_lt_zero j)
    · intro j hj
      exact absurd hj (Nat.not_lt_zero j)
  | cons supId rest ih =>
    intro s r0 cur hr0 hcur hnd hsup hfresh
    obtain ⟨hs_ne, rs, hrs, hrdn, hmatch⟩ := hsup supId (by simp)
    have hsupnotin : supId ∉ rest := (List.nodup_cons.mp hnd).1
    have hndrest : rest.Nodup := (List.nodup_cons.mp hnd).2
    rw [fanOut_cons rid tid inputs s supId rest r0 rs cur hr0 hcur hs_ne hrs hrdn hmatch hfresh]
    -- names for the intermediate states
    have hC_rid : getRes (notify (setRes (setRes (allocTask s inputs (some rid) (some supId)).2
        rid { r0 with supply := setA r0.supply tid (cur ++ [s.nextTaskId]) })
        supId { rs with new_tasks := rs.new_tasks ++ [s.nextTaskId] }) supId) rid =
        some { r0 with supply := setA r0.supply tid (cur ++ [s.nextTaskId]) } := by
      rw [getRes_notify, getRes_setRes_ne _ _ (Ne.symm hs_ne), getRes_setRes_self]
    have hC_cur : alookup ({ r0 with
        supply := setA r0.supply tid (cur ++ [s.nextTaskId]) } : ResourceData).supply tid =
        some (cur ++ [s.nextTaskId]) := alookup_setA_self _ _ _
    have hCx : ∀ x, x ≠ rid → x ≠ supId →
        getRes (notify (setRes (setRes (allocTask s inputs (some rid) (some supId)).2
          rid { r0 with supply := setA r0.supply tid (cur ++ [s.nextTaskId]) })
          supId { rs with new_tasks := rs.new_tasks ++ [s.nextTaskId] }) supId) x =
        getRes s x := by
      intro x hx1 hx2
      rw [getRes_notify, getRes_setRes_ne _ _ hx2, getRes_setRes_ne _ _ hx1, getRes_alloc]
    have hC_sup : ∀ x ∈ rest, x ≠ rid ∧ ∃ rs2,
        getRes (notify (setRes (setRes (allocTask s inputs (some rid) (some supId)).2
          rid { r0 with supply := setA r0.supply tid (cur ++ [s.nextTaskId]) })
          supId { rs with new_tasks := rs.new_tasks ++ [s.nextTaskId] }) supId) x = some rs2 ∧
        rs2.hasRdn = true ∧
        (rs2.processes.any fun q => keySetEq (dictKeys q.outputs) (dictKeys inputs)) = true := by
      intro x hx
      obtain ⟨hx1, rs2, hrs2, hb, hm⟩ := hsup x (by simp [hx])
      have hx2 : x ≠ supId := fun hh => hsupnotin (hh ▸ hx)
      exact ⟨hx1, rs2, by rw [hCx x hx1 hx2]; exact hrs2, hb, hm⟩
    have hC_fresh : ∀ q ∈ (notify (setRes (setRes (allocTask s inputs (some rid) (some supId)).2
        rid { r0 with supply := setA r0.supply tid (cur ++ [s.nextTaskId]) })
        supId { rs with new_tasks := rs.new_tasks ++ [s.nextTaskId] }) supId).taskHeap,
        q.1 < (notify (setRes (setRes (allocTask s inputs (some rid) (some supId)).2
        rid { r0 with supply := setA r0.supply tid (cur ++ [s.nextTaskId]) })
        supId { rs with new_tasks := rs.new_tasks ++ [s.nextTaskId] }) supId).nextTaskId := by
      rw [notify_taskHeap, notify_nextTaskId]
      exact alloc_fresh s inputs (some rid) (some supId) hfresh
    obtain ⟨sF, hF, ⟨rF, hrF, hcurF, hothF, hnF, htF, hpF, hhF⟩,
      hG2, hG3, hG4, hG5, hG6, hG7, hG8a, hG8b⟩ :=
      ih _ _ (cur ++ [s.nextTaskId]) hC_rid hC_cur hndrest hC_sup hC_fresh
    have hCnext : (notify (setRes (setRes (allocTask s inputs (some rid) (some supId)).2
        rid { r0 with supply := setA r0.supply tid (cur ++ [s.nextTaskId]) })
        supId { rs with new_tasks := rs.new_tasks ++ [s.nextTaskId] }) supId).nextTaskId =
        s.nextTaskId + 1 := by
      rw [notify_nextTaskId]; rfl
    have hCheap : ∀ x, x < s.nextTaskId →
        getTask (notify (setRes (setRes (allocTask s inputs (some rid) (some supId)).2
          rid { r0 with supply := setA r0.supply tid (cur ++ [s.nextTaskId]) })
          supId { rs with new_tasks := rs.new_tasks ++ [s.nextTaskId] }) supId) x =
        getTask s x := by
      intro x hx
      rw [getTask_notify, getTask_setRes, getTask_setRes,
        getTask_alloc_old s inputs (some rid) (some supId) (Nat.ne_of_lt hx)]
    have hCtask : getTask (notify (setRes (setRes (allocTask s inputs (some rid) (some supId)).2
        rid { r0 with supply := setA r0.supply tid (cur ++ [s.nextTaskId]) })
        supId { rs with new_tasks := rs.new_tasks ++ [s.nextTaskId] }) supId) s.nextTaskId =
        some { id := s.nextTaskId, requires := inputs, client := some rid,
               supplier := some supId } := by
      rw [getTask_notify, getTask_setRes, getTask_setRes,
        getTask_alloc_self s inputs (some rid) (some supId) hfresh, allocTask_fst]
    have hCsupId : getRes (notify (setRes (setRes (allocTask s inputs (some rid) (some supId)).2
        rid { r0 with supply := setA r0.supply tid (cur ++ [s.nextTaskId]) })
        supId { rs with new_tasks := rs.new_tasks ++ [s.nextTaskId] }) supId) supId =
        some { rs with new_tasks := rs.new_tasks ++ [s.nextTaskId] } := by
      rw [getRes_notify, getRes_setRes_self]
    have hCqueue : (notify (setRes (setRes (allocTask s inputs (some rid) (some supId)).2
        rid { r0 with supply := setA r0.supply tid (cur ++ [s.nextTaskId]) })
        supId { rs with new_tasks := rs.new_tasks ++ [s.nextTaskId] }) supId).task_queue =
        if s.task_queue.contains supId then s.task_queue else s.task_queue ++ [supId] :=
      notify_queue _ supId
    refine ⟨sF, hF, ⟨rF, hrF, ?_, ?_, ?_, ?_, ?_, ?_⟩, ?_, ?_, ?_, ?_, ?_, ?_, ?_, ?_⟩
    · -- the supply list accumulates in order
      rw [hcurF, hCnext, List.append_assoc, List.singleton_append, List.length_cons,
        range_shift_cons]
    · intro k2 hk2
      rw [hothF k2 hk2]
      exact alookup_setA_ne _ _ hk2
    · rw [hnF]
    · rw [htF]
    · rw [hpF]
    · rw [hhF]
    · rw [hG2, hCnext, List.length_cons]
      omega
    · intro j hj
      cases j with
      | zero =>
        rw [Nat.add_zero]
        have h0 : (0 : Nat) < (notify (setRes (setRes
            (allocTask s inputs (some rid) (some supId)).2
            rid { r0 with supply := setA r0.supply tid (cur ++ [s.nextTaskId]) })
            supId { rs with new_tasks := rs.new_tasks ++ [s.nextTaskId] }) supId).nextTaskId := by
          rw [hCnext]; omega
        rw [hG6 s.nextTaskId (by rw [hCnext]; omega), hCtask]
        rfl
      | succ j' =>
        have hj' : j' < rest.length := by
          simp only [List.length_cons] at hj
          omega
        have := hG3 j' hj'
        rw [hCnext] at this
        have harith : s.nextTaskId + 1 + j' = s.nextTaskId + (j' + 1) := by omega
        rw [harith] at this
        rw [this]
        congr 2
    · intro j hj
      cases j with
      | zero =>
        refine ⟨rs, hrs, ?_⟩
        have hmem0 : (supId :: rest).get ⟨0, hj⟩ = supId := rfl
        rw [hmem0, Nat.add_zero]
        rw [hG7 supId hs_ne hsupnotin, hCsupId]
      | succ j' =>
        have hj' : j' < rest.length := by
          simp only [List.length_cons] at hj
          omega
        obtain ⟨rs2, hrs2, hrs2F⟩ := hG4 j' hj'
        have hmem : rest.get ⟨j', hj'⟩ ∈ rest := List.get_mem rest j' hj'
        have hx1 : rest.get ⟨j', hj'⟩ ≠ rid := (hsup _ (by simp [hmem])).1
        have hx2 : rest.get ⟨j', hj'⟩ ≠ supId := fun hh => hsupnotin (hh ▸ hmem)
        rw [hCx _ hx1 hx2] at hrs2
        refine ⟨rs2, hrs2, ?_⟩
        rw [hCnext] at hrs2F
        have harith : s.nextTaskId + 1 + j' = s.nextTaskId + (j' + 1) := by omega
        rw [harith] at hrs2F
        exact hrs2F
    · -- the queue accumulates in order
      rw [hG5, hCqueue]
      by_cases hq : s.task_queue.contains supId = true
      · rw [if_pos hq]
        have hhead : (supId :: rest).filter (fun x => !(s.task_queue.contains x)) =
            rest.filter (fun x => !(s.task_queue.contains x)) := by
          rw [List.filter_cons]
          simp [List.elem_iff.mp hq]
        rw [hhead]
      · rw [if_neg hq]
        have hqf : s.task_queue.contains supId = false := Bool.eq_false_iff.mpr hq
        have hfe : rest.filter (fun x => !((s.task_queue ++ [supId]).contains x)) =
            rest.filter (fun x => !(s.task_queue.contains x)) := by
          refine List.filter_congr fun x hx => ?_
          have hxne : x ≠ supId := fun hh => hsupnotin (hh ▸ hx)
          rw [contains_append_singleton_ne hxne]
        rw [hfe]
        have hhead : (supId :: rest).filter (fun x => !(s.task_queue.contains x)) =
            supId :: rest.filter (fun x => !(s.task_queue.contains x)) := by
          have hnm : supId ∉ s.task_queue := fun hmem => hq (List.elem_iff.mpr hmem)
          rw [List.filter_cons]
          simp [hnm]
        rw [hhead, List.append_assoc, List.singleton_append]
    · intro x hx
      rw [hG6 x (by rw [hCnext]; omega), hCheap x hx]
    · intro x hx1 hx2
      have hxsup : x ≠ supId := fun hh => hx2 (by simp [hh])
      have hxrest : x ∉ rest := fun hh => hx2 (by simp [hh])
      rw [hG7 x hx1 hxrest, hCx x hx1 hxsup]
    · rw [hG8a, notify_nodes]
      rfl
    · rw [hG8b, notify_edges]
      rfl

theorem suppliersAux_ok (s : RDNState) (t : Task) :
    ∀ (l : List Nat), (∀ x ∈ l, (getRes s x).isSome) →
    suppliersAux s t l = .ok (l.filter fun nid =>
      ((getRes s nid).map fun rx => can_support rx t).getD false) := by
  intro l
  induction l with
  | nil => intro _; rfl
  | cons nid rest ih =>
    intro h
    have hs := h nid (by simp)
    cases hrx : getRes s nid with
    | none => rw [hrx] at hs; simp at hs
    | some rx =>
      have hrest := ih fun y hy => h y (by simp [hy])
      simp only [suppliersAux, hrx, hrest, List.filter_cons, Option.map_some, Option.getD_some]
      cases hcs : can_support rx t
      · simp [hcs]
      · simp [hcs]

/-- An inbox task whose matching process needs no inputs is popped and
silently committed: the drain continues on the updated state. -/
theorem awaiting_step_no_inputs (rid fuel : Nat) (s : RDNState) (r : ResourceData)
    (tid : Nat) (rest : List Nat) (t : Task) (p : Process)
    (hr : getRes s rid = some r) (hnew : r.new_tasks = tid :: rest)
    (ht : getTask s tid = some t)
    (hp : get_process r t = some p) (hin : p.inputs = []) :
    awaiting_supply_schedule rid (fuel + 1) s =
      awaiting_supply_schedule rid fuel
        (setRes s rid { r with new_tasks := rest, tasks := r.tasks ++ [tid] }) := by
  have hp1 : get_process { r with new_tasks := rest, tasks := r.tasks ++ [tid] } t = some p := hp
  have hie : p.inputs.isEmpty = true := by rw [hin]; rfl
  simp only [awaiting_supply_schedule, hr, hnew, ht, hp1, hie, if_true]

/-- The head of the inbox needs inputs: Phase A pops it, allocates its
supply entry and the probe task, fans supply tasks out to exactly the
downstream resources that can support the input key set, and returns True
(waiting).  The conclusion lists the claimed effects relative to the entry
state. -/
theorem awaiting_fanout_case (rid fuel : Nat) (s : RDNState) (r : ResourceData)
    (tid : Nat) (rest : List Nat) (t : Task) (p : Process) (sups : List Nat)
    (hr : getRes s rid = some r)
    (hnew : r.new_tasks = tid :: rest)
    (ht : getTask s tid = some t)
    (hp : get_process r t = some p)
    (hin : p.inputs ≠ [])
    (hfn : ∀ x ∈ fromNodes s rid, x ≠ rid ∧ ∃ rx, getRes s x = some rx ∧ rx.hasRdn = true)
    (hfnd : (fromNodes s rid).Nodup)
    (hsups : sups = (fromNodes s rid).filter fun nid =>
      ((getRes s nid).map fun rx =>
        rx.processes.any fun q => keySetEq (dictKeys q.outputs) (dictKeys p.inputs)).getD false)
    (hfresh : ∀ q ∈ s.taskHeap, q.1 < s.nextTaskId) :
    ∃ sF, awaiting_supply_schedule rid (fuel + 1) s = .ok (true, sF) ∧
      (∃ rF, getRes sF rid = some rF ∧
        rF.new_tasks = rest ∧ rF.tasks = r.tasks ++ [tid] ∧
        alookup rF.supply tid =
          some ((List.range sups.length).map fun j => s.nextTaskId + 1 + j) ∧
        (∀ k2, k2 ≠ tid → alookup rF.supply k2 = alookup r.supply k2) ∧
        rF.processes = r.processes ∧ rF.hasRdn = r.hasRdn) ∧
      sF.nextTaskId = s.nextTaskId + 1 + sups.length ∧
      (∀ j, (hj : j < sups.length) → getTask sF (s.nextTaskId + 1 + j) =
        some { id := s.nextTaskId + 1 + j, requires := p.inputs, client := some rid,
               supplier := some (sups.get ⟨j, hj⟩) }) ∧
      (∀ j, (hj : j < sups.length) → ∃ rs, getRes s (sups.get ⟨j, hj⟩) = some rs ∧
        getRes sF (sups.get ⟨j, hj⟩) =
          some { rs with new_tasks := rs.new_tasks ++ [s.nextTaskId + 1 + j] }) ∧
      sF.task_queue = s.task_queue ++ sups.filter (fun x => !(s.task_queue.contains x)) ∧
      (∀ x, x < s.nextTaskId → getTask sF x = getTask s x) ∧
      (∀ x, x ≠ rid → x ∉ sups → getRes sF x = getRes s x) ∧
      sF.nodes = s.nodes ∧ sF.edges = s.edges := by
  have hp1 : get_process { r with new_tasks := rest, tasks := r.tasks ++ [tid] } t = some p := hp
  have hie : p.inputs.isEmpty = false := by
    cases hpi : p.inputs with
    | nil => exact absurd hpi hin
    | cons a l => rfl
  -- the state in which the suppliers are computed and the fan-out runs
  have hs3x : ∀ x, x ≠ rid →
      getRes ((allocTask (setRes (setRes s rid
          { r with new_tasks := rest, tasks := r.tasks ++ [tid] }) rid
          { r with new_tasks := rest, tasks := r.tasks ++ [tid],
                   supply := setA r.supply tid [] })
        p.inputs (some rid) none).2) x = getRes s x := by
    intro x hx
    rw [getRes_alloc, getRes_setRes_ne _ _ hx, getRes_setRes_ne _ _ hx]
  have hs3rid : getRes ((allocTask (setRes (setRes s rid
      { r with new_tasks := rest, tasks := r.tasks ++ [tid] }) rid
      { r with new_tasks := rest, tasks := r.tasks ++ [tid],
               supply := setA r.supply tid [] })
      p.inputs (some rid) none).2) rid =
      some { r with new_tasks := rest, tasks := r.tasks ++ [tid],
                    supply := setA r.supply tid [] } := by
    rw [getRes_alloc, getRes_setRes_self]
  -- the suppliers call reduces to the filtered downstream list
  have hsupelt : ∀ x ∈ sups, x ∈ fromNodes s rid ∧
      ((getRes s x).map fun rx =>
        rx.processes.any fun q => keySetEq (dictKeys q.outputs) (dictKeys p.inputs)).getD false
        = true := by
    intro x hx
    rw [hsups] at hx
    exact ⟨(List.mem_filter.mp hx).1, (List.mem_filter.mp hx).2⟩
  have hsupok : suppliers ((allocTask (setRes (setRes s rid
      { r with new_tasks := rest, tasks := r.tasks ++ [tid] }) rid
      { r with new_tasks := rest, tasks := r.tasks ++ [tid],
               supply := setA r.supply tid [] })
      p.inputs (some rid) none).2) rid
      ((allocTask (setRes (setRes s rid
      { r with new_tasks := rest, tasks := r.tasks ++ [tid] }) rid
      { r with new_tasks := rest, tasks := r.tasks ++ [tid],
               supply := setA r.supply tid [] })
      p.inputs (some rid) none).1) = .ok sups := by
    unfold suppliers
    have hfrom : fromNodes ((allocTask (setRes (setRes s rid
        { r with new_tasks := rest, tasks := r.tasks ++ [tid] }) rid
        { r with new_tasks := rest, tasks := r.tasks ++ [tid],
                 supply := setA r.supply tid [] })
        p.inputs (some rid) none).2) rid = fromNodes s rid := rfl
    rw [hfrom]
    have hres : ∀ x ∈ fromNodes s rid,
        (getRes ((allocTask (setRes (setRes s rid
          { r with new_tasks := rest, tasks := r.tasks ++ [tid] }) rid
          { r with new_tasks := rest, tasks := r.tasks ++ [tid],
                   supply := setA r.supply tid [] })
          p.inputs (some rid) none).2) x).isSome := by
      intro x hx
      obtain ⟨hx1, rx, hrx, _⟩ := hfn x hx
      rw [hs3x x hx1, hrx]
      rfl
    rw [suppliersAux_ok _ _ _ hres, hsups]
    congr 1
    refine List.filter_congr fun nid hnid => ?_
    rw [hs3x nid (hfn nid hnid).1]
    rfl
  -- apply the fan-out lemma in that state
  obtain ⟨sF, hF, ⟨rF, hrF, hcurF, hothF, hnF, htF, hpF, hhF⟩,
      hG2, hG3, hG4, hG5, hG6, hG7, hG8a, hG8b⟩ :=
    fanOut_ok rid tid p.inputs sups
      ((allocTask (setRes (setRes s rid
        { r with new_tasks := rest, tasks := r.tasks ++ [tid] }) rid
        { r with new_tasks := rest, tasks := r.tasks ++ [tid],
                 supply := setA r.supply tid [] })
        p.inputs (some rid) none).2)
      { r with new_tasks := rest, tasks := r.tasks ++ [tid],
               supply := setA r.supply tid [] }
      [] hs3rid (alookup_setA_self _ _ _) (hsups ▸ hfnd.filter _)
      (by
        intro x hx
        obtain ⟨hmem, hcond⟩ := hsupelt x hx
        obtain ⟨hx1, rx, hrx, hrdn⟩ := hfn x hmem
        refine ⟨hx1, rx, by rw [hs3x x hx1]; exact hrx, hrdn, ?_⟩
        rw [hrx] at hcond
        exact hcond)
      (alloc_fresh _ _ _ _ hfresh)
  have hnx : ((allocTask (setRes (setRes s rid
      { r with new_tasks := rest, tasks := r.tasks ++ [tid] }) rid
      { r with new_tasks := rest, tasks := r.tasks ++ [tid],
               supply := setA r.supply tid [] })
      p.inputs (some rid) none).2).nextTaskId = s.nextTaskId + 1 := rfl
  simp only [hnx] at hcurF hG2 hG3 hG4 hG6
  have hG5a : sF.task_queue = s.task_queue ++ sups.filter (fun x => !(s.task_queue.contains x)) :=
    hG5
  have hG8a2 : sF.nodes = s.nodes := hG8a
  have hG8b2 : sF.edges = s.edges := hG8b
  refine ⟨sF, ?_, ⟨rF, hrF, hnF, htF, ?_, ?_, hpF, hhF⟩, hG2, hG3, ?_, hG5a, ?_, ?_,
    hG8a2, hG8b2⟩
  · -- the Phase A call reduces to the fan-out result
    simp only [awaiting_supply_schedule, hr, hnew, ht, hp1, hie, Bool.false_eq_true, if_false,
      hsupok, hF]
  · rw [hcurF]
    simp
  · intro k2 hk2
    rw [hothF k2 hk2]
    exact alookup_setA_ne _ _ hk2
  · intro j hj
    obtain ⟨rs, hrs, hrsF⟩ := hG4 j hj
    have hmem : sups.get ⟨j, hj⟩ ∈ sups := List.get_mem sups j hj
    have hne : sups.get ⟨j, hj⟩ ≠ rid := (hfn _ (hsupelt _ hmem).1).1
    rw [hs3x _ hne] at hrs
    exact ⟨rs, hrs, hrsF⟩
  · intro x hx
    rw [hG6 x (Nat.lt_succ_of_lt hx),
      getTask_alloc_old (setRes (setRes s rid
        { r with new_tasks := rest, tasks := r.tasks ++ [tid] }) rid
        { r with new_tasks := rest, tasks := r.tasks ++ [tid],
                 supply := setA r.supply tid [] })
        p.inputs (some rid) none (Nat.ne_of_lt hx), getTask_setRes, getTask_setRes]
  · intro x hx1 hx2
    rw [hG7 x hx1 hx2, hs3x x hx1]

theorem setRes_task_queue (s : RDNState) (rid : Nat) (r : ResourceData) :
    (setRes s rid r).task_queue = s.task_queue := rfl

theorem setRes_nextTaskId (s : RDNState) (rid : Nat) (r : ResourceData) :
    (setRes s rid r).nextTaskId = s.nextTaskId := rfl

theorem setRes_nodes (s : RDNState) (rid : Nat) (r : ResourceData) :
    (setRes s rid r).nodes = s.nodes := rfl

theorem setRes_edges (s : RDNState) (rid : Nat) (r : ResourceData) :
    (setRes s rid r).edges = s.edges := rfl

theorem setRes_taskHeap (s : RDNState) (rid : Nat) (r : ResourceData) :
    (setRes s rid r).taskHeap = s.taskHeap := rfl

/-- Phase A of `Resource.schedule` on an inbox whose first tasks need no
inputs, followed by a task `tid` whose process does: every prefix task is
popped and committed in order, then the fan-out for `tid` runs and the
call reports *waiting* (True).  The conclusion lists the claimed effects:
drained inbox, committed sequence, one fresh supply task per supplier
with the claimed fields, each supplier's inbox extended and each supplier
enqueued, everything else untouched. -/
theorem awaiting_phaseA (rid : Nat) :
    ∀ (pre : List Nat) (extra : Nat) (s : RDNState) (r : ResourceData)
      (tid : Nat) (rest : List Nat) (t : Task) (p : Process) (sups : List Nat),
    getRes s rid = some r →
    r.new_tasks = pre ++ tid :: rest →
    (∀ x ∈ pre, ∃ u pu, getTask s x = some u ∧ get_process r u = some pu ∧ pu.inputs = []) →
    getTask s tid = some t →
    get_process r t = some p →
    p.inputs ≠ [] →
    (∀ x ∈ fromNodes s rid, x ≠ rid ∧ ∃ rx, getRes s x = some rx ∧ rx.hasRdn = true) →
    (fromNodes s rid).Nodup →
    sups = ((fromNodes s rid).filter fun nid =>
      ((getRes s nid).map fun rx =>
        rx.processes.any fun q => keySetEq (dictKeys q.outputs) (dictKeys p.inputs)).getD false) →
    (∀ q ∈ s.taskHeap, q.1 < s.nextTaskId) →
    ∃ sF, awaiting_supply_schedule rid (pre.length + 1 + extra) s = .ok (true, sF) ∧
      (∃ rF, getRes sF rid = some rF ∧
        rF.new_tasks = rest ∧ rF.tasks = r.tasks ++ pre ++ [tid] ∧
        alookup rF.supply tid =
          some ((List.range sups.length).map fun j => s.nextTaskId + 1 + j) ∧
        (∀ k2, k2 ≠ tid → alookup rF.supply k2 = alookup r.supply k2) ∧
        rF.processes = r.processes ∧ rF.hasRdn = r.hasRdn) ∧
      sF.nextTaskId = s.nextTaskId + 1 + sups.length ∧
      (∀ j, (hj : j < sups.length) → getTask sF (s.nextTaskId + 1 + j) =
        some { id := s.nextTaskId + 1 + j, requires := p.inputs, client := some rid,
               supplier := some (sups.get ⟨j, hj⟩) }) ∧
      (∀ j, (hj : j < sups.length) → ∃ rs, getRes s (sups.get ⟨j, hj⟩) = some rs ∧
        getRes sF (sups.get ⟨j, hj⟩) =
          some { rs with new_tasks := rs.new_tasks ++ [s.nextTaskId + 1 + j] }) ∧
      sF.task_queue = s.task_queue ++ sups.filter (fun x => !(s.task_queue.contains x)) ∧
      (∀ x, x < s.nextTaskId → getTask sF x = getTask s x) ∧
      (∀ x, x ≠ rid → x ∉ sups → getRes sF x = getRes s x) ∧
      sF.nodes = s.nodes ∧ sF.edges = s.edges := by
  intro pre
  induction pre with
  | nil =>
    intro extra s r tid rest t p sups hr hnew hpre ht hp hin hfn hfnd hsups hfresh
    have hfuel : ([] : List Nat).length + 1 + extra = extra + 1 := by simp; omega
    rw [hfuel]
    obtain ⟨sF, hok, ⟨rF, h1, h2, h3, h4, h5, h6, h7⟩, hrest⟩ :=
      awaiting_fanout_case rid extra s r tid rest t p sups hr (by simpa using hnew)
        ht hp hin hfn hfnd hsups hfresh
    exact ⟨sF, hok, ⟨rF, h1, h2, by simpa using h3, h4, h5, h6, h7⟩, hrest⟩
  | cons x pre ih =>
    intro extra s r tid rest t p sups hr hnew hpre ht hp hin hfn hfnd hsups hfresh
    obtain ⟨u, pu, hu, hpu, hpui⟩ := hpre x (by simp)
    have hnewx : r.new_tasks = x :: (pre ++ tid :: rest) := by simpa using hnew
    have hfuel : (x :: pre).length + 1 + extra = (pre.length + 1 + extra) + 1 := by
      simp [List.length_cons]
      omega
    rw [hfuel,
      awaiting_step_no_inputs rid (pre.length + 1 + extra) s r x (pre ++ tid :: rest) u pu
        hr hnewx hu hpu hpui]
    -- hypotheses at the post-pop state
    have hr2 : getRes (setRes s rid
        { r with new_tasks := pre ++ tid :: rest, tasks := r.tasks ++ [x] }) rid =
        some { r with new_tasks := pre ++ tid :: rest, tasks := r.tasks ++ [x] } :=
      getRes_setRes_self _ _ _
    have hx2 : ∀ y, y ≠ rid → getRes (setRes s rid
        { r with new_tasks := pre ++ tid :: rest, tasks := r.tasks ++ [x] }) y = getRes s y :=
      fun y hy => getRes_setRes_ne _ _ hy
    have hpre2 : ∀ y ∈ pre, ∃ u2 pu2,
        getTask (setRes s rid
          { r with new_tasks := pre ++ tid :: rest, tasks := r.tasks ++ [x] }) y = some u2 ∧
        get_process { r with new_tasks := pre ++ tid :: rest, tasks := r.tasks ++ [x] } u2 =
          some pu2 ∧ pu2.inputs = [] := by
      intro y hy
      obtain ⟨u2, pu2, hu2, hpu2, hpi2⟩ := hpre y (by simp [hy])
      exact ⟨u2, pu2, hu2, hpu2, hpi2⟩
    have hfn2 : ∀ y ∈ fromNodes (setRes s rid
        { r with new_tasks := pre ++ tid :: rest, tasks := r.tasks ++ [x] }) rid,
        y ≠ rid ∧ ∃ rx, getRes (setRes s rid
          { r with new_tasks := pre ++ tid :: rest, tasks := r.tasks ++ [x] }) y = some rx ∧
          rx.hasRdn = true := by
      intro y hy
      obtain ⟨hy1, rx, hrx, hb⟩ := hfn y hy
      exact ⟨hy1, rx, by rw [hx2 y hy1]; exact hrx, hb⟩
    have hsups2 : sups = ((fromNodes (setRes s rid
        { r with new_tasks := pre ++ tid :: rest, tasks := r.tasks ++ [x] }) rid).filter
        fun nid => ((getRes (setRes s rid
          { r with new_tasks := pre ++ tid :: rest, tasks := r.tasks ++ [x] }) nid).map fun rx =>
          rx.processes.any fun q =>
            keySetEq (dictKeys q.outputs) (dictKeys p.inputs)).getD false) := by
      rw [hsups]
      refine (List.filter_congr fun nid hnid => ?_).symm
      rw [hx2 nid (hfn nid hnid).1]
    obtain ⟨sF, hok, ⟨rF, h1, h2, h3, h4, h5, h6, h7⟩,
        hG2, hG3, hG4, hG5, hG6, hG7, hG8a, hG8b⟩ :=
      ih extra (setRes s rid
          { r with new_tasks := pre ++ tid :: rest, tasks := r.tasks ++ [x] })
        { r with new_tasks := pre ++ tid :: rest, tasks := r.tasks ++ [x] }
        tid rest t p sups hr2 rfl hpre2 ht hp hin hfn2 hfnd hsups2 hfresh
    simp only [setRes_nextTaskId, setRes_task_queue, setRes_nodes,
      setRes_edges] at hG2 hG3 hG4 hG5 hG6 hG7 hG8a hG8b h4
    refine ⟨sF, hok, ⟨rF, h1, h2, ?_, h4, h5, h6, h7⟩, hG2, hG3, ?_, hG5, ?_, ?_, hG8a, hG8b⟩
    · rw [h3]
      simp [List.append_assoc]
    · intro j hj
      obtain ⟨rs, hrs, hrsF⟩ := hG4 j hj
      have hsups_ne : ∀ y ∈ sups, y ≠ rid := by
        intro y hy
        rw [hsups] at hy
        exact (hfn _ (List.mem_filter.mp hy).1).1
      have hne : sups.get ⟨j, hj⟩ ≠ rid := hsups_ne _ (List.get_mem sups j hj)
      rw [hx2 _ hne] at hrs
      exact ⟨rs, hrs, hrsF⟩
    · intro y hy
      rw [hG6 y hy, getTask_setRes]
    · intro y hy1 hy2
      rw [hG7 y hy1 hy2, hx2 y hy1]

theorem anyUncommittedList_ok (s : RDNState) :
    ∀ (l : List Nat), (∀ x ∈ l, (getTask s x).isSome) →
    anyUncommittedList s l = .ok (l.any fun x =>
      ((getTask s x).map fun u =>
        u.scheduled_start.isNone || u.scheduled_finish.isNone).getD false) := by
  intro l
  induction l with
  | nil => intro _; rfl
  | cons x rest ih =>
    intro h
    have hx := h x (by simp)
    cases hgt : getTask s x with
    | none => rw [hgt] at hx; simp at hx
    | some u =>
      have hrest := ih fun y hy => h y (by simp [hy])
      simp only [anyUncommittedList, hgt, List.any_cons]
      have hmap : ((Option.map (fun u : Task =>
          u.scheduled_start.isNone || u.scheduled_finish.isNone) (some u)).getD false) =
          (u.scheduled_start.isNone || u.scheduled_finish.isNone) := rfl
      rw [hmap]
      cases hu : u.scheduled_start.isNone || u.scheduled_finish.isNone
      · simp only [hu, Bool.false_eq_true, if_false, Bool.false_or]
        exact hrest
      · simp [hu]

theorem anySupplyUncommitted_ok (s : RDNState) :
    ∀ (sup : List (Nat × List Nat)), (∀ e ∈ sup, ∀ x ∈ e.2, (getTask s x).isSome) →
    anySupplyUncommitted s sup = .ok (sup.any fun e => e.2.any fun x =>
      ((getTask s x).map fun u =>
        u.scheduled_start.isNone || u.scheduled_finish.isNone).getD false) := by
  intro sup
  induction sup with
  | nil => intro _; rfl
  | cons e rest ih =>
    intro h
    obtain ⟨k, tids⟩ := e
    have he := anyUncommittedList_ok s tids fun x hx => h (k, tids) (by simp) x hx
    have hrest := ih fun e2 he2 x hx => h e2 (by simp [he2]) x hx
    simp only [anySupplyUncommitted, he, List.any_cons]
    cases hb : tids.any fun x =>
        ((getTask s x).map fun u =>
          u.scheduled_start.isNone || u.scheduled_finish.isNone).getD false
    · simp only [Bool.false_or]
      exact hrest
    · simp

/-- Phase A with an empty inbox and a supply list holding an uncommitted
task: the call reports *waiting* (True) and leaves the state untouched —
no sequence layout happens. -/
theorem awaiting_waiting_on_supply (rid fuel : Nat) (s : RDNState) (r : ResourceData)
    (hr : getRes s rid = some r) (hnew : r.new_tasks = [])
    (hres : ∀ e ∈ r.supply, ∀ x ∈ e.2, (getTask s x).isSome)
    (hunc : ∃ e ∈ r.supply, ∃ x ∈ e.2, ∃ u, getTask s x = some u ∧
      (u.scheduled_start = none ∨ u.scheduled_finish = none)) :
    awaiting_supply_schedule rid (fuel + 1) s = .ok (true, s) := by
  obtain ⟨e, hee, x, hx, u, hu, hdisj⟩ := hunc
  have hsne : r.supply.isEmpty = false := by
    cases hsp : r.supply with
    | nil => rw [hsp] at hee; cases hee
    | cons a l => rfl
  have hb : (r.supply.any fun e => e.2.any fun x =>
      ((getTask s x).map fun v =>
        v.scheduled_start.isNone || v.scheduled_finish.isNone).getD false) = true := by
    refine List.any_eq_true.mpr ⟨e, hee, List.any_eq_true.mpr ⟨x, hx, ?_⟩⟩
    rw [hu]
    rcases hdisj with h1 | h1 <;> simp [h1]
  simp only [awaiting_supply_schedule, hr, hnew, afterDrain, hsne, Bool.false_eq_true,
    if_false, anySupplyUncommitted_ok s r.supply hres, hb]

/-- C2: Phase A of `Resource.schedule()`.
First conjunct — for an inbox consisting of input-free tasks followed by
a task `tid` whose matching process `p` has non-empty inputs: the prefix
is committed silently; for `tid` the code allocates `supply[tid] = []`,
creates one supply task per downstream supplier that can produce
`p.inputs` (ids drawn consecutively from the global counter after the
probe task, each with `requires = p.inputs`, `client = rid`, `supplier` =
that resource), appends each to `supply[tid]`, appends each to its
supplier's inbox via `add_task`, enqueues each supplier on the RDN queue,
and returns *waiting* (True) immediately after this one fan-out, leaving
the rest of the inbox untouched.
Second conjunct — with an empty inbox and some supply list containing a
task whose scheduled times are unset, the call returns *waiting* without
laying out the sequence (the state is unchanged). -/
theorem C2_phaseA_fanout_and_waiting (rid : Nat) :
    (∀ (pre : List Nat) (extra : Nat) (s : RDNState) (r : ResourceData)
      (tid : Nat) (rest : List Nat) (t : Task) (p : Process) (sups : List Nat),
    getRes s rid = some r →
    r.new_tasks = pre ++ tid :: rest →
    (∀ x ∈ pre, ∃ u pu, getTask s x = some u ∧ get_process r u = some pu ∧ pu.inputs = []) →
    getTask s tid = some t →
    get_process r t = some p →
    p.inputs ≠ [] →
    (∀ x ∈ fromNodes s rid, x ≠ rid ∧ ∃ rx, getRes s x = some rx ∧ rx.hasRdn = true) →
    (fromNodes s rid).Nodup →
    sups = ((fromNodes s rid).filter fun nid =>
      ((getRes s nid).map fun rx =>
        rx.processes.any fun q => keySetEq (dictKeys q.outputs) (dictKeys p.inputs)).getD false) →
    (∀ q ∈ s.taskHeap, q.1 < s.nextTaskId) →
    ∃ sF, awaiting_supply_schedule rid (pre.length + 1 + extra) s = .ok (true, sF) ∧
      (∃ rF, getRes sF rid = some rF ∧
        rF.new_tasks = rest ∧ rF.tasks = r.tasks ++ pre ++ [tid] ∧
        alookup rF.supply tid =
          some ((List.range sups.length).map fun j => s.nextTaskId + 1 + j) ∧
        (∀ k2, k2 ≠ tid → alookup rF.supply k2 = alookup r.supply k2) ∧
        rF.processes = r.processes ∧ rF.hasRdn = r.hasRdn) ∧
      sF.nextTaskId = s.nextTaskId + 1 + sups.length ∧
      (∀ j, (hj : j < sups.length) → getTask sF (s.nextTaskId + 1 + j) =
        some { id := s.nextTaskId + 1 + j, requires := p.inputs, client := some rid,
               supplier := some (sups.get ⟨j, hj⟩) }) ∧
      (∀ j, (hj : j < sups.length) → ∃ rs, getRes s (sups.get ⟨j, hj⟩) = some rs ∧
        getRes sF (sups.get ⟨j, hj⟩) =
          some { rs with new_tasks := rs.new_tasks ++ [s.nextTaskId + 1 + j] }) ∧
      sF.task_queue = s.task_queue ++ sups.filter (fun x => !(s.task_queue.contains x)) ∧
      (∀ x, x < s.nextTaskId → getTask sF x = getTask s x) ∧
      (∀ x, x ≠ rid → x ∉ sups → getRes sF x = getRes s x) ∧
      sF.nodes = s.nodes ∧ sF.edges = s.edges) ∧
    (∀ (fuel : Nat) (s : RDNState) (r : ResourceData),
    getRes s rid = some r →
    r.new_tasks = [] →
    (∀ e ∈ r.supply, ∀ x ∈ e.2, (getTask s x).isSome) →
    (∃ e ∈ r.supply, ∃ x ∈ e.2, ∃ u, getTask s x = some u ∧
      (u.scheduled_start = none ∨ u.scheduled_finish = none)) →
    awaiting_supply_schedule rid (fuel + 1) s = .ok (true, s)) :=
  ⟨fun pre extra s r tid rest t p sups hr hnew hpre ht hp hin hfn hfnd hsups hfresh =>
    awaiting_phaseA rid pre extra s r tid rest t p sups hr hnew hpre ht hp hin hfn hfnd
      hsups hfresh,
   fun fuel s r hr hnew hres hunc =>
    awaiting_waiting_on_supply rid fuel s r hr hnew hres hunc⟩

theorem C2_witness :
    (∃ sF, awaiting_supply_schedule 0 1 fanOutState = .ok (true, sF) ∧
      (∃ rF, getRes sF 0 = some rF ∧ rF.new_tasks = [] ∧ rF.tasks = [0] ∧
        alookup rF.supply 0 = some [2, 3]) ∧
      sF.nextTaskId = 4 ∧
      getTask sF 2 = some { id := 2, requires := [("a", 1)], client := some 0,
                            supplier := some 1 } ∧
      getTask sF 3 = some { id := 3, requires := [("a", 1)], client := some 0,
                            supplier := some 2 } ∧
      (∃ rs1, getRes sF 1 = some rs1 ∧ rs1.new_tasks = [2]) ∧
      (∃ rs2, getRes sF 2 = some rs2 ∧ rs2.new_tasks = [3]) ∧
      sF.task_queue = [1, 2]) ∧
    awaiting_supply_schedule 0 5 waitingState = .ok (true, waitingState) := by
  constructor
  · obtain ⟨sF, hok, ⟨rF, hrF, hn, htk, hsup, _, _, _⟩, hG2, hG3, hG4, hG5, _, _, _, _⟩ :=
      (C2_phaseA_fanout_and_waiting 0).1 [] 0 fanOutState
        { new_tasks := [0], hasRdn := true,
          processes := [{ inputs := [("a", 1)], outputs := [("b", 1)] }] }
        0 [] { id := 0, requires := [("b", 1)] }
        { inputs := [("a", 1)], outputs := [("b", 1)] } [1, 2]
        rfl rfl (by simp) rfl rfl (by decide)
        (by
          intro x hx
          have he : fromNodes fanOutState 0 = [1, 2] := rfl
          rw [he] at hx
          simp only [List.mem_cons, List.not_mem_nil, or_false] at hx
          rcases hx with rfl | rfl
          · exact ⟨by decide,
              ⟨{ hasRdn := true, processes := [{ outputs := [("a", 1)] }] }, rfl, rfl⟩⟩
          · exact ⟨by decide,
              ⟨{ hasRdn := true, processes := [{ outputs := [("a", 1)] }] }, rfl, rfl⟩⟩)
        (by decide) (by decide) (by decide)
    obtain ⟨rs1, hrs1a, hrs1b⟩ := hG4 0 (by decide)
    obtain ⟨rs2, hrs2a, hrs2b⟩ := hG4 1 (by decide)
    have hrs1eq : ({ hasRdn := true, processes := [{ outputs := [("a", 1)] }] } : ResourceData) = rs1 :=
      Option.some.inj hrs1a
    have hrs2eq : ({ hasRdn := true, processes := [{ outputs := [("a", 1)] }] } : ResourceData) = rs2 :=
      Option.some.inj hrs2a
    refine ⟨sF, hok, ⟨rF, hrF, hn, by simpa using htk, hsup⟩, hG2,
      hG3 0 (by decide), hG3 1 (by decide), ⟨_, hrs1b, ?_⟩, ⟨_, hrs2b, ?_⟩, hG5⟩
    · rw [← hrs1eq]
      rfl
    · rw [← hrs2eq]
      rfl
  · exact (C2_phaseA_fanout_and_waiting 0).2 4 waitingState
      { tasks := [0], supply := [(0, [1])], hasRdn := true,
        processes := [{ inputs := [("a", 1)], outputs := [("b", 1)] }] }
      rfl rfl (by decide)
      ⟨(0, [1]), by simp, 1, by simp,
        { id := 1, requires := [("a", 1)], client := some 0, supplier := some 1 },
        rfl, Or.inl rfl⟩

end SchedulingProblem

namespace FlowHash

open SchedulingProblem (PyErr alookup setA updateA)

theorem alookup_some_mem {α : Type} {l : List (Nat × α)} {k : Nat} {v : α}
    (h : alookup l k = some v) : (k, v) ∈ l := by
  induction l with
  | nil => exact absurd h (by simp [alookup])
  | cons p rest ih =>
    obtain ⟨a, b⟩ := p
    by_cases hk : k = a
    · rw [show alookup ((a, b) :: rest) k = if k = a then some b else alookup rest k from rfl,
        if_pos hk] at h
      obtain rfl : b = v := Option.some.inj h
      rw [hk]
      exact List.mem_cons_self _ _
    · rw [show alookup ((a, b) :: rest) k = if k = a then some b else alookup rest k from rfl,
        if_neg hk] at h
      exact List.mem_cons_of_mem _ (ih h)

theorem alookup_none_no_key {α : Type} {l : List (Nat × α)} {k : Nat}
    (h : alookup l k = none) : ∀ p ∈ l, p.1 ≠ k := by
  induction l with
  | nil => simp
  | cons p rest ih =>
    obtain ⟨a, b⟩ := p
    by_cases hk : k = a
    · rw [show alookup ((a, b) :: rest) k = if k = a then some b else alookup rest k from rfl,
        if_pos hk] at h
      exact absurd h (by simp)
    · rw [show alookup ((a, b) :: rest) k = if k = a then some b else alookup rest k from rfl,
        if_neg hk] at h
      intro q hq
      rcases List.mem_cons.mp hq with rfl | hq2
      · exact fun hh => hk hh.symm
      · exact ih h q hq2

theorem mem_updateA {α : Type} {l : List (Nat × α)} {k : Nat} {v : α} :
    ∀ q ∈ updateA l k v, q = (k, v) ∨ (q ∈ l ∧ q.1 ≠ k) := by
  induction l with
  | nil => simp [updateA]
  | cons p rest ih =>
    obtain ⟨a, b⟩ := p
    by_cases hk : a = k
    · intro q hq
      rw [show updateA ((a, b) :: rest) k v =
        (if a = k then (k, v) :: updateA rest k v else (a, b) :: updateA rest k v) from rfl,
        if_pos hk] at hq
      rcases List.mem_cons.mp hq with rfl | hq2
      · exact Or.inl rfl
      · rcases ih q hq2 with h1 | ⟨h2, h3⟩
        · exact Or.inl h1
        · exact Or.inr ⟨List.mem_cons_of_mem _ h2, h3⟩
    · intro q hq
      rw [show updateA ((a, b) :: rest) k v =
        (if a = k then (k, v) :: updateA rest k v else (a, b) :: updateA rest k v) from rfl,
        if_neg hk] at hq
      rcases List.mem_cons.mp hq with rfl | hq2
      · exact Or.inr ⟨by simp, hk⟩
      · rcases ih q hq2 with h1 | ⟨h2, h3⟩
        · exact Or.inl h1
        · exact Or.inr ⟨List.mem_cons_of_mem _ h2, h3⟩

theorem mem_setA_of_some {α : Type} {l : List (Nat × α)} {k : Nat} {w : α}
    (hs : alookup l k = some w) {v : α} :
    ∀ q ∈ setA l k v, q = (k, v) ∨ (q ∈ l ∧ q.1 ≠ k) := by
  intro q hq
  simp only [setA, hs, Option.isSome_some, if_true] at hq
  exact mem_updateA q hq

theorem successors_mem_edges {g : InGraph} {v r : Nat} (h : r ∈ successors g v) :
    (v, r) ∈ g.edges := by
  simp only [successors, List.mem_map, List.mem_filter] at h
  obtain ⟨e, ⟨hmem, hfst⟩, hsnd⟩ := h
  have h1 : e.1 = v := by simpa using hfst
  have h2 : e = (v, r) := by
    obtain ⟨x, y⟩ := e
    simp only [Prod.mk.injEq]
    exact ⟨h1, hsnd⟩
  rw [← h2]
  exact hmem

theorem checkSinks_ok {hg : HGraph} :
    ∀ (l : List Nat), checkSinks hg l = .ok () →
    ∀ v ∈ l, ∃ n, hgNode hg v = some n ∧ n.newHash ≠ none := by
  intro l
  induction l with
  | nil => intro _ v hv; cases hv
  | cons x rest ih =>
    intro h v hv
    cases hn : hgNode hg x with
    | none => simp [checkSinks, hn] at h
    | some n =>
      cases hh : n.newHash with
      | none => simp [checkSinks, hn, hh] at h
      | some d =>
        simp only [checkSinks, hn, hh] at h
        rcases List.mem_cons.mp hv with rfl | hv2
        · exact ⟨n, hn, by simp [hh]⟩
        · exact ih h v hv2

theorem processReceivers_inv (source : Nat) (g : InGraph) :
    ∀ (rcvs : List Nat) (hg : HGraph) (visited wl : List Nat),
    (∀ r ∈ rcvs, (source, r) ∈ g.edges) →
    (∀ q ∈ hg.nodes, q.2.original = q.1) →
    (∀ e ∈ hg.edges, e ∈ g.edges) →
    (∀ q ∈ hg.nodes, q.2.newHash = none → q.1 ∈ wl) →
    (∀ q ∈ (processReceivers source hg visited wl rcvs).1.nodes, q.2.original = q.1) ∧
    (∀ e ∈ (processReceivers source hg visited wl rcvs).1.edges, e ∈ g.edges) ∧
    (∀ q ∈ (processReceivers source hg visited wl rcvs).1.nodes, q.2.newHash = none →
      q.1 ∈ (processReceivers source hg visited wl rcvs).2.2) := by
  intro rcvs
  induction rcvs with
  | nil =>
    intro hg visited wl _ h1 h2 h3
    exact ⟨h1, h2, h3⟩
  | cons rcv rest ih =>
    intro hg visited wl hr h1 h2 h3
    by_cases hv : visited.contains rcv = true
    · simp only [processReceivers, hv, if_true]
      exact ih hg visited wl (fun r hmem => hr r (by simp [hmem])) h1 h2 h3
    · simp only [processReceivers, hv, Bool.false_eq_true, if_false]
      refine ih _ _ _ (fun r hmem => hr r (by simp [hmem])) ?_ ?_ ?_
      · intro q hq
        by_cases hn : (hgNode hg rcv).isSome
        · simp only [hn, if_true] at hq
          exact h1 q hq
        · simp only [hn, Bool.false_eq_true, if_false] at hq
          rcases List.mem_append.mp hq with hq2 | hq2
          · exact h1 q hq2
          · rcases List.mem_singleton.mp hq2 with rfl
            rfl
      · intro e he
        by_cases hn : (hgNode hg rcv).isSome
        · simp only [hn, if_true] at he
          rcases List.mem_append.mp he with he2 | he2
          · exact h2 e he2
          · rcases List.mem_singleton.mp he2 with rfl
            exact hr rcv (by simp)
        · simp only [hn, Bool.false_eq_true, if_false] at he
          rcases List.mem_append.mp he with he2 | he2
          · exact h2 e he2
          · rcases List.mem_singleton.mp he2 with rfl
            exact hr rcv (by simp)
      · intro q hq hnone
        have hwl : ∀ y, y ∈ wl → y ∈ (if wl.contains rcv then wl else wl ++ [rcv]) := by
          intro y hy
          by_cases hc : wl.contains rcv = true
          · rw [if_pos hc]
            exact hy
          · rw [if_neg hc]
            exact List.mem_append.mpr (Or.inl hy)
        by_cases hn : (hgNode hg rcv).isSome
        · simp only [hn, if_true] at hq
          exact hwl _ (h3 q hq hnone)
        · simp only [hn, Bool.false_eq_true, if_false] at hq
          rcases List.mem_append.mp hq with hq2 | hq2
          · exact hwl _ (h3 q hq2 hnone)
          · rcases List.mem_singleton.mp hq2 with rfl
            by_cases hc : wl.contains rcv = true
            · rw [if_pos hc]
              exact List.elem_iff.mp hc
            · rw [if_neg hc]
              exact List.mem_append.mpr (Or.inr (by simp))

theorem flowLoop_inv (g : InGraph) :
    ∀ (fuel : Nat) (hg : HGraph) (visited wl : List Nat) (hgF : HGraph),
    flowLoop g fuel hg visited wl = .ok hgF →
    (∀ q ∈ hg.nodes, q.2.original = q.1) →
    (∀ q ∈ hg.nodes, q.2.newHash = none → q.1 ∈ wl) →
    (∀ e ∈ hg.edges, e ∈ g.edges) →
    (∀ q ∈ hgF.nodes, q.2.original = q.1 ∧ q.2.newHash ≠ none) ∧
    (∀ e ∈ hgF.edges, e ∈ g.edges) := by
  intro fuel
  induction fuel with
  | zero =>
    intro hg visited wl hgF h h1 h2 h3
    cases wl with
    | nil =>
      rw [show flowLoop g 0 hg visited [] = .ok hg from rfl] at h
      obtain rfl : hg = hgF := Except.ok.inj h
      refine ⟨fun q hq => ⟨h1 q hq, fun hnone => ?_⟩, h3⟩
      exact absurd (h2 q hq hnone) (List.not_mem_nil _)
    | cons a l =>
      rw [show flowLoop g 0 hg visited (a :: l) = .error .outOfFuel from rfl] at h
      exact absurd h (by simp)
  | succ n ih =>
    intro hg visited wl hgF h h1 h2 h3
    cases wl with
    | nil =>
      rw [show flowLoop g (n + 1) hg visited [] = .ok hg from rfl] at h
      obtain rfl : hg = hgF := Except.ok.inj h
      refine ⟨fun q hq => ⟨h1 q hq, fun hnone => ?_⟩, h3⟩
      exact absurd (h2 q hq hnone) (List.not_mem_nil _)
    | cons source wl2 =>
      cases habs : absorbSuppliers g hg source (predecessors g source) with
      | error e =>
        simp only [flowLoop, habs] at h
        exact absurd h (by simp)
      | ok hs =>
        simp only [flowLoop, habs] at h
        cases hnode : hgNode hg source with
        | none =>
          simp only [hnode] at h
          have hnode2 : alookup hg.nodes source = none := hnode
          have h9 : flowLoop g n
              (processReceivers source
                { hg with nodes := hg.nodes ++
                  [(source, ⟨source, some (hashDigest (toString source :: hs))⟩)] }
                visited wl2 (successors g source)).1
              (processReceivers source
                { hg with nodes := hg.nodes ++
                  [(source, ⟨source, some (hashDigest (toString source :: hs))⟩)] }
                visited wl2 (successors g source)).2.1
              (processReceivers source
                { hg with nodes := hg.nodes ++
                  [(source, ⟨source, some (hashDigest (toString source :: hs))⟩)] }
                visited wl2 (successors g source)).2.2 = .ok hgF := h
          have k1 : ∀ q ∈ hg.nodes ++
              [(source, (⟨source, some (hashDigest (toString source :: hs))⟩ : HNode))],
              q.2.original = q.1 := by
            intro q hq
            rcases List.mem_append.mp hq with hq2 | hq2
            · exact h1 q hq2
            · rcases List.mem_singleton.mp hq2 with rfl
              rfl
          have k2 : ∀ q ∈ hg.nodes ++
              [(source, (⟨source, some (hashDigest (toString source :: hs))⟩ : HNode))],
              q.2.newHash = none → q.1 ∈ wl2 := by
            intro q hq hnone
            rcases List.mem_append.mp hq with hq2 | hq2
            · have h5 := h2 q hq2 hnone
              rcases List.mem_cons.mp h5 with h6 | h6
              · exact absurd h6 (alookup_none_no_key hnode2 q hq2)
              · exact h6
            · rcases List.mem_singleton.mp hq2 with rfl
              exact absurd hnone (by simp)
          obtain ⟨p1, p2, p3⟩ := processReceivers_inv source g (successors g source)
            { hg with nodes := hg.nodes ++
              [(source, ⟨source, some (hashDigest (toString source :: hs))⟩)] }
            visited wl2 (fun r hmem => successors_mem_edges hmem) k1 h3 k2
          exact ih _ _ _ hgF h9 p1 p3 p2
        | some nd =>
          simp only [hnode] at h
          have hnode2 : alookup hg.nodes source = some nd := hnode
          have horig : nd.original = source := h1 (source, nd) (alookup_some_mem hnode2)
          have h9 : flowLoop g n
              (processReceivers source
                (hgSet hg source { nd with newHash := some (hashDigest (toString source :: hs)) })
                visited wl2 (successors g source)).1
              (processReceivers source
                (hgSet hg source { nd with newHash := some (hashDigest (toString source :: hs)) })
                visited wl2 (successors g source)).2.1
              (processReceivers source
                (hgSet hg source { nd with newHash := some (hashDigest (toString source :: hs)) })
                visited wl2 (successors g source)).2.2 = .ok hgF := h
          have hmem : ∀ q ∈ (hgSet hg source
              { nd with newHash := some (hashDigest (toString source :: hs)) }).nodes,
              q = (source, ({ nd with newHash := some (hashDigest (toString source :: hs)) } : HNode)) ∨
              (q ∈ hg.nodes ∧ q.1 ≠ source) := by
            intro q hq
            simp only [hgSet] at hq
            exact mem_setA_of_some hnode2 q hq
          have k1 : ∀ q ∈ (hgSet hg source
              { nd with newHash := some (hashDigest (toString source :: hs)) }).nodes,
              q.2.original = q.1 := by
            intro q hq
            rcases hmem q hq with rfl | ⟨hq2, _⟩
            · exact horig
            · exact h1 q hq2
          have k2 : ∀ q ∈ (hgSet hg source
              { nd with newHash := some (hashDigest (toString source :: hs)) }).nodes,
              q.2.newHash = none → q.1 ∈ wl2 := by
            intro q hq hnone
            rcases hmem q hq with rfl | ⟨hq2, hq3⟩
            · exact absurd hnone (by simp)
            · have h5 := h2 q hq2 hnone
              rcases List.mem_cons.mp h5 with h6 | h6
              · exact absurd h6 hq3
              · exact h6
          have k3 : ∀ e ∈ (hgSet hg source
              { nd with newHash := some (hashDigest (toString source :: hs)) }).edges,
              e ∈ g.edges := fun e he => h3 e he
          obtain ⟨p1, p2, p3⟩ := processReceivers_inv source g (successors g source)
            (hgSet hg source { nd with newHash := some (hashDigest (toString source :: hs)) })
            visited wl2 (fun r hmem2 => successors_mem_edges hmem2) k1 k3 k2
          exact ih _ _ _ hgF h9 p1 p3 p2

/-- C7 counterexample: on the graph of `test_flow_graph_async_01` (edges
1→2, 2→4, 3→4) the input has the edge (2, 4) but the returned hash graph
does not — when node 2 is popped, its receiver 4 is already in `visited`
(queued earlier by node 3) and the receiver loop skips it entirely,
including the `add_edge` call.  So the output does not have the same
topology as the input. -/
theorem C7_counterexample :
    (2, 4) ∈ asyncGraph.edges ∧
    (flow_graph_hash 20 asyncGraph).map HGraph.edges = .ok [(1, 2), (3, 4)] ∧
    (2, 4) ∉ ([(1, 2), (3, 4)] : List (Nat × Nat)) := by
  refine ⟨by decide, rfl, by decide⟩

/-- C7 (amended): when `flow_graph_hash` returns a hash graph `hg` (rather
than raising), every node of `hg` carries `original_hash` equal to its own
id and a non-null `new_hash` digest; every edge of `hg` is an edge of the
input graph (the converse — same topology — is false, see the
counterexample); and every sink of the input (out-degree 0) is present in
`hg` with a non-null `new_hash`, as the final assertion demands. -/
theorem C7_flow_graph_hash_amended (fuel : Nat) (g : InGraph) (hg : HGraph)
    (h : flow_graph_hash fuel g = .ok hg) :
    (∀ q ∈ hg.nodes, q.2.original = q.1 ∧ q.2.newHash ≠ none) ∧
    (∀ e ∈ hg.edges, e ∈ g.edges) ∧
    (∀ v ∈ g.nodes, (g.edges.any fun e => e.1 == v) = false →
      ∃ n, hgNode hg v = some n ∧ n.newHash ≠ none) := by
  simp only [flow_graph_hash] at h
  cases hloop : flowLoop g fuel {} []
      (g.nodes.filter fun v => !(g.edges.any fun e => e.2 == v)) with
  | error e =>
    rw [hloop] at h
    exact absurd h (by simp)
  | ok hg0 =>
    rw [hloop] at h
    cases hsink : checkSinks hg0 (g.nodes.filter fun v => !(g.edges.any fun e => e.1 == v)) with
    | error e =>
      simp only [hsink] at h
      exact absurd h (by simp)
    | ok u =>
      cases u
      simp only [hsink] at h
      obtain rfl : hg0 = hg := Except.ok.inj h
      obtain ⟨hA, hB⟩ := flowLoop_inv g fuel {} []
        (g.nodes.filter fun v => !(g.edges.any fun e => e.2 == v)) hg0 hloop
        (fun q hq => absurd hq (List.not_mem_nil _))
        (fun q hq => absurd hq (List.not_mem_nil _))
        (fun e he => absurd he (List.not_mem_nil _))
      refine ⟨hA, hB, ?_⟩
      intro v hv hcond
      exact checkSinks_ok _ hsink v (List.mem_filter.mpr ⟨hv, by simp [hcond]⟩)

/-- C7 witness: the amended theorem applied to the async test graph.  The
run succeeds with every node hashed, every output edge is an input edge,
and the sink 4 carries a non-null hash. -/
theorem C7_witness :
    (∀ q ∈ (HGraph.mk
      [(1, ⟨1, some "sha3(1)"⟩), (2, ⟨2, some "sha3(2,sha3(1))"⟩),
       (3, ⟨3, some "sha3(3)"⟩), (4, ⟨4, some "sha3(4,sha3(2,sha3(1)),sha3(3))"⟩)]
      [(1, 2), (3, 4)]).nodes, q.2.original = q.1 ∧ q.2.newHash ≠ none) ∧
    (∀ e ∈ (HGraph.mk
      [(1, ⟨1, some "sha3(1)"⟩), (2, ⟨2, some "sha3(2,sha3(1))"⟩),
       (3, ⟨3, some "sha3(3)"⟩), (4, ⟨4, some "sha3(4,sha3(2,sha3(1)),sha3(3))"⟩)]
      [(1, 2), (3, 4)]).edges, e ∈ asyncGraph.edges) ∧
    (∃ n, hgNode (HGraph.mk
      [(1, ⟨1, some "sha3(1)"⟩), (2, ⟨2, some "sha3(2,sha3(1))"⟩),
       (3, ⟨3, some "sha3(3)"⟩), (4, ⟨4, some "sha3(4,sha3(2,sha3(1)),sha3(3))"⟩)]
      [(1, 2), (3, 4)]) 4 = some n ∧ n.newHash ≠ none) := by
  have h := C7_flow_graph_hash_amended 20 asyncGraph (HGraph.mk
    [(1, ⟨1, some "sha3(1)"⟩), (2, ⟨2, some "sha3(2,sha3(1))"⟩),
     (3, ⟨3, some "sha3(3)"⟩), (4, ⟨4, some "sha3(4,sha3(2,sha3(1)),sha3(3))"⟩)]
    [(1, 2), (3, 4)]) rfl
  exact ⟨h.1, h.2.1, h.2.2 4 (by decide) (by decide)⟩

end FlowHash
